import Mathlib

/-!
# SoundVelocityProfile (MBES-lib, `src/svp/SoundVelocityProfile.hpp`)

A shallow embedding of the `SoundVelocityProfile` class and the properties of its
append / lazy-materialisation contract.

* `double` is modelled by `Double`, the value set of IEEE-754 binary64 with a single NaN,
  together with the three operations the class uses (`std::trunc`, `-`, `*`), rounded to
  nearest, ties to even.
* `unsigned int` is 32 bits wide: a conversion to it is `% 2 ^ 32` and `i++` on it wraps.
* `Eigen::VectorXd` and `std::vector<std::pair<double, double>>` are lists.
* A member function that contains a loop takes a `fuel` argument bounding the number of
  evaluations of the loop condition and returns in `Except Fault`.
-/

/-! ## `double` -/

/-- The values of a C++ `double` (IEEE-754 binary64): NaN, the two infinities, and the finite
values `(-1)^neg * m * 2^e`. A finite value is kept in canonical form: `m` odd, or `m = 0` and
`e = 0` (the two signed zeros). -/
inductive Double where
  | nan
  | inf (neg : Bool)
  | fin (neg : Bool) (m : Nat) (e : Int)
  deriving DecidableEq

namespace Double

/-- The number of binary digits of `n`, by halving at most `fuel` times. -/
def bitsAux : Nat → Nat → Nat
  | 0, _ => 0
  | fuel + 1, n => if n = 0 then 0 else bitsAux fuel (n / 2) + 1

/-- The number of binary digits of `n` (`0` for `0`). -/
def bits (n : Nat) : Nat := bitsAux n n

/-- The number of trailing zero binary digits of `n`, by halving at most `fuel` times. -/
def trailingAux : Nat → Nat → Nat
  | 0, _ => 0
  | fuel + 1, n => if n % 2 = 1 then 0 else trailingAux fuel (n / 2) + 1

/-- The number of trailing zero binary digits of `n` (`0` for `0`). -/
def trailing (n : Nat) : Nat := trailingAux (bits n) n

/-- Canonical form of `(-1)^neg * m * 2^e`: the trailing zero bits of `m` move into the
exponent. -/
def canon (neg : Bool) (m : Nat) (e : Int) : Double :=
  if m = 0 then fin neg 0 0
  else fin neg (m / 2 ^ trailing m) (e + (trailing m : Nat))

/-- Round the exact value `(-1)^neg * m * 2^e` to binary64, to nearest, ties to even:
53 significant bits, least exponent of the last place `-1074`, overflow at `2^1024`. -/
def round (neg : Bool) (m : Nat) (e : Int) : Double :=
  if m = 0 then fin neg 0 0
  else
    let e' : Int := max (e + (bits m : Nat) - 53) (-1074)
    if e' ≤ e then
      if e + (bits m : Nat) > 1024 then inf neg else canon neg m e
    else
      let k : Nat := (e' - e).toNat
      let q := m / 2 ^ k
      let r := m % 2 ^ k
      let half := 2 ^ (k - 1)
      let q' := if r > half ∨ (r = half ∧ q % 2 = 1) then q + 1 else q
      if q' = 0 then fin neg 0 0
      else if e' + (bits q' : Nat) > 1024 then inf neg
      else canon neg q' e'

/-- Conversion of an integer constant (`60` in `latlongFormat`) to `double`. -/
def ofNat (n : Nat) : Double := round false n 0

/-- The `double` nearest to the decimal constant `m * 10^(-k)`, as a C++ literal such as
`1501.2` (`m = 15012`, `k = 1`) denotes. The quotient is computed to more than 60 bits and the
inexact remainder is kept as a sticky last bit, so that `round` sees on which side of a tie the
exact value lies. -/
def ofDecimal (m k : Nat) : Double :=
  let s := 60 + 4 * k
  let q := (m * 2 ^ s) / 10 ^ k
  let sticky := if (m * 2 ^ s) % 10 ^ k = 0 then 0 else 1
  round false (2 * q + sticky) (-((s : Int) + 1))

/-- Unary minus. -/
def neg : Double → Double
  | nan => nan
  | inf s => inf (!s)
  | fin s m e => fin (!s) m e

/-- The signed integer `(-1)^s * m * 2^(e - e0)` for `e0 ≤ e`. -/
def scaled (s : Bool) (m : Nat) (e e0 : Int) : Int :=
  let v : Int := (m * 2 ^ (e - e0).toNat : Nat)
  if s then -v else v

/-- Addition `a + b` of two doubles. -/
def add : Double → Double → Double
  | nan, _ => nan
  | _, nan => nan
  | inf s, inf t => if s = t then inf s else nan
  | inf s, fin _ _ _ => inf s
  | fin _ _ _, inf t => inf t
  | fin s m e, fin t n f =>
      let e0 := min e f
      let sum := scaled s m e e0 + scaled t n f e0
      if sum = 0 then fin (s && t) 0 0
      else round (decide (sum < 0)) sum.natAbs e0

/-- Subtraction `a - b` of two doubles. -/
def sub (a b : Double) : Double := add a (neg b)

/-- Multiplication `a * b` of two doubles. -/
def mul : Double → Double → Double
  | nan, _ => nan
  | _, nan => nan
  | inf s, inf t => inf (xor s t)
  | inf s, fin t n _ => if n = 0 then nan else inf (xor s t)
  | fin s m _, inf t => if m = 0 then nan else inf (xor s t)
  | fin s m e, fin t n f => round (xor s t) (m * n) (e + f)

/-- The function `std::trunc`: rounding to an integer toward zero, the sign kept. -/
def trunc : Double → Double
  | nan => nan
  | inf s => inf s
  | fin s m e => if 0 ≤ e then fin s m e else canon s (m / 2 ^ (-e).toNat) 0

/-- The test `std::isnan`. -/
def isNaN : Double → Bool
  | nan => true
  | _ => false

end Double

/-! ## The class -/

/-- The width of `unsigned int`: its values are the naturals below `2 ^ 32`. -/
def UINT_RANGE : Nat := 2 ^ 32

/-- The ways in which a call can fail to return a value in the model: an index outside its
container (`samples[i]`, `depths(i)`, `speeds(i)`), or a loop that is still running when the
fuel is spent. -/
inductive Fault where
  | outOfBounds
  | outOfFuel
  deriving DecidableEq

/-- The data members of `class SoundVelocityProfile`. `timestamp` is a `uint64_t` that is only
stored and read back; `depths` and `speeds` are the `Eigen::VectorXd` columns; `samples` is the
`std::vector` of (depth, speed) pairs. -/
structure SoundVelocityProfile where
  timestamp : Nat
  latitude : Double
  longitude : Double
  draft : Double
  depths : List Double
  speeds : List Double
  samples : List (Double × Double)
  deriving DecidableEq

namespace SoundVelocityProfile

/-- The constructor `SoundVelocityProfile::SoundVelocityProfile()`: it assigns NaN to
`longitude` and `latitude` and nothing else. `timestamp` and `draft` keep whatever the storage
held (the arguments `ts` and `dr`); the three containers are default-constructed, hence empty. -/
def construct (ts : Nat) (dr : Double) : SoundVelocityProfile :=
  { timestamp := ts
    latitude := Double.nan
    longitude := Double.nan
    draft := dr
    depths := []
    speeds := []
    samples := [] }

/-- The member `getLatitude()`: the value returned and the state afterwards. -/
def getLatitude (p : SoundVelocityProfile) : Double × SoundVelocityProfile :=
  (p.latitude, p)

/-- The member `setLatitude(double l)`. -/
def setLatitude (p : SoundVelocityProfile) (l : Double) : SoundVelocityProfile :=
  { p with latitude := l }

/-- The member `getLongitude()`: the value returned and the state afterwards. -/
def getLongitude (p : SoundVelocityProfile) : Double × SoundVelocityProfile :=
  (p.longitude, p)

/-- The member `setLongitude(double l)`. -/
def setLongitude (p : SoundVelocityProfile) (l : Double) : SoundVelocityProfile :=
  { p with longitude := l }

/-- The member `getTimestamp()`: the value returned and the state afterwards. -/
def getTimestamp (p : SoundVelocityProfile) : Nat × SoundVelocityProfile :=
  (p.timestamp, p)

/-- The member `setTimestamp(uint64_t t)`. -/
def setTimestamp (p : SoundVelocityProfile) (t : Nat) : SoundVelocityProfile :=
  { p with timestamp := t }

/-- The member `latlongFormat(double value)`. The argument `fmt` is the insertion of a `double`
into a `std::stringstream` (`ss << degrees`); the result is `ss.str()`. -/
def latlongFormat (fmt : Double → String) (value : Double) : String :=
  let degrees := Double.trunc value
  let minutes := Double.trunc (Double.mul (Double.sub value degrees) (Double.ofNat 60))
  let second := Double.mul (Double.sub value minutes) (Double.ofNat 60)
  " " ++ fmt degrees ++ ":" ++ fmt minutes ++ ":" ++ fmt second

/-- The member `add(double depth, double soundSpeed)`: `samples.push_back`. -/
def add (p : SoundVelocityProfile) (depth soundSpeed : Double) : SoundVelocityProfile :=
  { p with samples := p.samples ++ [(depth, soundSpeed)] }

/-- The call `v.resize(n)` of `Eigen::VectorXd`: nothing happens when `v` has `n` coefficients
already; otherwise the storage is reallocated and the `n` coefficients are not initialised:
coefficient `i` holds `junk i`. -/
def resize (junk : Nat → Double) (v : List Double) (n : Nat) : List Double :=
  if v.length = n then v else (List.range n).map junk

/-- The loop `for (unsigned int i = 0; i < samples.size(); i++) col(i) = sel(samples[i]);`
from the state in which the counter is `i` and the column is `col`. `sel` is `.first` in
`getDepths` and `.second` in `getSpeeds`. Every index is checked; `i++` wraps at `2 ^ 32`. -/
def copyLoop (sel : Double × Double → Double) (samples : List (Double × Double)) :
    Nat → Nat → List Double → Except Fault (List Double)
  | 0, _, _ => Except.error Fault.outOfFuel
  | fuel + 1, i, col =>
      if i < samples.length then
        match samples[i]? with
        | none => Except.error Fault.outOfBounds
        | some smp =>
            if i < col.length then
              copyLoop sel samples fuel ((i + 1) % UINT_RANGE) (col.set i (sel smp))
            else Except.error Fault.outOfBounds
      else Except.ok col

/-- The member `getDepths()`: the column the returned reference designates, and the state
afterwards. -/
def getDepths (junk : Nat → Double) (fuel : Nat) (p : SoundVelocityProfile) :
    Except Fault (List Double × SoundVelocityProfile) :=
  if p.depths.length % UINT_RANGE ≠ p.samples.length then
    match copyLoop Prod.fst p.samples fuel 0 (resize junk p.depths p.samples.length) with
    | Except.ok col => Except.ok (col, { p with depths := col })
    | Except.error f => Except.error f
  else Except.ok (p.depths, p)

/-- The member `getSpeeds()`: the column the returned reference designates, and the state
afterwards. -/
def getSpeeds (junk : Nat → Double) (fuel : Nat) (p : SoundVelocityProfile) :
    Except Fault (List Double × SoundVelocityProfile) :=
  if p.speeds.length % UINT_RANGE ≠ p.samples.length then
    match copyLoop Prod.snd p.samples fuel 0 (resize junk p.speeds p.samples.length) with
    | Except.ok col => Except.ok (col, { p with speeds := col })
    | Except.error f => Except.error f
  else Except.ok (p.speeds, p)

/-- The member `getSize()`: `getDepths().size()` converted to `unsigned int`. -/
def getSize (junk : Nat → Double) (fuel : Nat) (p : SoundVelocityProfile) :
    Except Fault (Nat × SoundVelocityProfile) :=
  match getDepths junk fuel p with
  | Except.ok (col, p') => Except.ok (col.length % UINT_RANGE, p')
  | Except.error f => Except.error f

/-- A call of one of the state-changing members, with its arguments (`junk` is the content of
the storage a `resize` inside the call would obtain). -/
inductive Call where
  | add (depth soundSpeed : Double)
  | getDepths (junk : Nat → Double)
  | getSpeeds (junk : Nat → Double)
  | getSize (junk : Nat → Double)
  | setLatitude (l : Double)
  | setLongitude (l : Double)
  | setTimestamp (t : Nat)

/-- The state after one call, the value returned dropped. -/
def exec (fuel : Nat) (p : SoundVelocityProfile) : Call → Except Fault SoundVelocityProfile
  | Call.add d s => Except.ok (p.add d s)
  | Call.getDepths junk => (getDepths junk fuel p).map Prod.snd
  | Call.getSpeeds junk => (getSpeeds junk fuel p).map Prod.snd
  | Call.getSize junk => (getSize junk fuel p).map Prod.snd
  | Call.setLatitude l => Except.ok (p.setLatitude l)
  | Call.setLongitude l => Except.ok (p.setLongitude l)
  | Call.setTimestamp t => Except.ok (p.setTimestamp t)

/-- The state after a sequence of calls made one after the other; a call that does not return
ends the sequence. -/
def run (fuel : Nat) : SoundVelocityProfile → List Call → Except Fault SoundVelocityProfile
  | p, [] => Except.ok p
  | p, c :: cs =>
      match exec fuel p c with
      | Except.ok p' => run fuel p' cs
      | Except.error f => Except.error f

/-- Whether a call is an `add`. -/
def Call.isAdd : Call → Bool
  | Call.add _ _ => true
  | _ => false

/-- The number of `add` calls in a sequence of calls. -/
def countAdds (cs : List Call) : Nat := (cs.filter Call.isAdd).length

/-- The state after the calls `add(x.1, x.2)` for `x` in `xs`, in this order. -/
def addAll (p : SoundVelocityProfile) (xs : List (Double × Double)) : SoundVelocityProfile :=
  xs.foldl (fun q x => q.add x.1 x.2) p

/-- Whether a call is a `setLatitude`. -/
def Call.isSetLatitude : Call → Bool
  | Call.setLatitude _ => true
  | _ => false

/-- Whether a call is a `setLongitude`. -/
def Call.isSetLongitude : Call → Bool
  | Call.setLongitude _ => true
  | _ => false

/-- The loop of `copyLoop` with one more component of state: `visited` lists, in order, the
values of the counter `i` at which the body has run. -/
def copyLoopTrace (sel : Double × Double → Double) (samples : List (Double × Double)) :
    Nat → Nat → List Double → List Nat → Except Fault (List Double × List Nat)
  | 0, _, _, _ => Except.error Fault.outOfFuel
  | fuel + 1, i, col, visited =>
      if i < samples.length then
        match samples[i]? with
        | none => Except.error Fault.outOfBounds
        | some smp =>
            if i < col.length then
              copyLoopTrace sel samples fuel ((i + 1) % UINT_RANGE) (col.set i (sel smp))
                (visited ++ [i])
            else Except.error Fault.outOfBounds
      else Except.ok (col, visited)

/-- The member `getDepths()` with the counter values at which the body of its loop ran. -/
def getDepthsTrace (junk : Nat → Double) (fuel : Nat) (p : SoundVelocityProfile) :
    Except Fault (List Double × SoundVelocityProfile × List Nat) :=
  if p.depths.length % UINT_RANGE ≠ p.samples.length then
    match copyLoopTrace Prod.fst p.samples fuel 0 (resize junk p.depths p.samples.length) [] with
    | Except.ok (col, visited) => Except.ok (col, { p with depths := col }, visited)
    | Except.error f => Except.error f
  else Except.ok (p.depths, p, [])

/-- The member `getSpeeds()` with the counter values at which the body of its loop ran. -/
def getSpeedsTrace (junk : Nat → Double) (fuel : Nat) (p : SoundVelocityProfile) :
    Except Fault (List Double × SoundVelocityProfile × List Nat) :=
  if p.speeds.length % UINT_RANGE ≠ p.samples.length then
    match copyLoopTrace Prod.snd p.samples fuel 0 (resize junk p.speeds p.samples.length) [] with
    | Except.ok (col, visited) => Except.ok (col, { p with speeds := col }, visited)
    | Except.error f => Except.error f
  else Except.ok (p.speeds, p, [])

/-- A caller's `getDepths()` followed by `getSpeeds()`: the depth column, the speed column and
the final state. -/
def depthsThenSpeeds (jd js : Nat → Double) (fuel : Nat) (p : SoundVelocityProfile) :
    Except Fault (List Double × List Double × SoundVelocityProfile) :=
  match getDepths jd fuel p with
  | Except.ok (dcol, p1) =>
      match getSpeeds js fuel p1 with
      | Except.ok (scol, p2) => Except.ok (dcol, scol, p2)
      | Except.error f => Except.error f
  | Except.error f => Except.error f

/-- A caller's `getSpeeds()` followed by `getDepths()`: the depth column, the speed column and
the final state. -/
def speedsThenDepths (jd js : Nat → Double) (fuel : Nat) (p : SoundVelocityProfile) :
    Except Fault (List Double × List Double × SoundVelocityProfile) :=
  match getSpeeds js fuel p with
  | Except.ok (scol, p1) =>
      match getDepths jd fuel p1 with
      | Except.ok (dcol, p2) => Except.ok (dcol, scol, p2)
      | Except.error f => Except.error f
  | Except.error f => Except.error f

/-- A caller's assignment `getDepths()(i) = v` through the reference a previous `getDepths()`
returned: coefficient `i` of the depth column becomes `v`, the log is not involved. -/
def writeDepth (p : SoundVelocityProfile) (i : Nat) (v : Double) : SoundVelocityProfile :=
  { p with depths := p.depths.set i v }

/-- A caller's assignment `getSpeeds()(i) = v` through the reference a previous `getSpeeds()`
returned: coefficient `i` of the speed column becomes `v`, the log is not involved. -/
def writeSpeed (p : SoundVelocityProfile) (i : Nat) (v : Double) : SoundVelocityProfile :=
  { p with speeds := p.speeds.set i v }

/-- A state that some sequence of calls reaches from a freshly constructed profile. -/
def Reachable (p : SoundVelocityProfile) : Prop :=
  ∃ ts dr fuel cs, run fuel (construct ts dr) cs = Except.ok p

/-- The depth column of a sample log. -/
def depthColumn (samples : List (Double × Double)) : List Double := samples.map Prod.fst

/-- The speed column of a sample log. -/
def speedColumn (samples : List (Double × Double)) : List Double := samples.map Prod.snd

/-- Each derived column is an initial segment of the corresponding column of the log. -/
def PrefixInv (p : SoundVelocityProfile) : Prop :=
  p.depths <+: depthColumn p.samples ∧ p.speeds <+: speedColumn p.samples

end SoundVelocityProfile

/-! ## Concrete data used at the concrete instances -/

namespace SoundVelocityProfile

/-- The three samples `(1.0, 1500.0)`, `(2.0, 1501.2)`, `(3.5, 1502.0)`. -/
def exampleSamples : List (Double × Double) :=
  [(Double.ofDecimal 10 1, Double.ofDecimal 15000 1),
   (Double.ofDecimal 20 1, Double.ofDecimal 15012 1),
   (Double.ofDecimal 35 1, Double.ofDecimal 15020 1)]

/-- A content for uninitialised storage: every coefficient is `-1`. -/
def exampleJunk : Nat → Double := fun _ => Double.neg (Double.ofNat 1)

/-- A sequence of calls that interleaves `add` with the accessors and the setters. -/
def exampleCalls : List Call :=
  [Call.add (Double.ofNat 1) (Double.ofNat 1500), Call.getDepths exampleJunk,
   Call.add (Double.ofNat 2) (Double.ofNat 1501), Call.getSpeeds exampleJunk,
   Call.setLatitude (Double.ofDecimal 455 1), Call.add (Double.ofNat 3) (Double.ofNat 1502),
   Call.getSize exampleJunk, Call.setTimestamp 7]

/-- The state after `add(1.0, 1500.0)`, `add(2.0, 1501.0)`, `getDepths()`, `getSpeeds()` on
a fresh profile: both columns are materialised. -/
def exampleState : SoundVelocityProfile :=
  { construct 0 Double.nan with
    samples := [(Double.ofNat 1, Double.ofNat 1500), (Double.ofNat 2, Double.ofNat 1501)]
    depths := [Double.ofNat 1, Double.ofNat 2]
    speeds := [Double.ofNat 1500, Double.ofNat 1501] }

/-- The sample `(0.0, 1500.0)`. -/
def surfaceSample : Double × Double := (Double.ofNat 0, Double.ofNat 1500)

/-- A profile with the single sample `surfaceSample` whose two columns have `n` coefficients
each, as a caller can leave them by resizing through the references `getDepths()` and
`getSpeeds()` returned. -/
def paddedProfile (n : Nat) : SoundVelocityProfile :=
  { construct 0 Double.nan with
    samples := [surfaceSample]
    depths := List.replicate n surfaceSample.1
    speeds := List.replicate n surfaceSample.2 }

/-- The state after `add(1.0, 1500.0)`, `getDepths()`, `add(2.0, 1501.0)` on a fresh profile:
the depth column is one sample behind the log and the speed column is empty. -/
def staleState : SoundVelocityProfile :=
  { construct 0 Double.nan with
    samples := [(Double.ofNat 1, Double.ofNat 1500), (Double.ofNat 2, Double.ofNat 1501)]
    depths := [Double.ofNat 1] }

/-- The state `exampleState` after a caller's `getDepths()(0) = 9.0` and
`getSpeeds()(1) = 9.0`. -/
def writtenState : SoundVelocityProfile :=
  writeSpeed (writeDepth exampleState 0 (Double.ofNat 9)) 1 (Double.ofNat 9)

/-- A profile whose log is `n` copies of `surfaceSample` and whose depth column has been
materialised. -/
def materializedProfile (n : Nat) : SoundVelocityProfile :=
  { construct 0 Double.nan with
    samples := List.replicate n surfaceSample
    depths := List.replicate n surfaceSample.1 }

end SoundVelocityProfile

/-! ## The copy loop and the two accessors -/

namespace SoundVelocityProfile

/-- After `resize(n)` the column has `n` coefficients. -/
theorem resize_length (junk : Nat → Double) (v : List Double) (n : Nat) :
    (resize junk v n).length = n := by
  unfold resize
  split
  · assumption
  · simp

/-- Below `2 ^ 32` samples the loop returns once the fuel exceeds the number of samples left:
the coefficients below the counter are kept and the others are copied from the log. -/
theorem copyLoop_ok (sel : Double × Double → Double) (samples : List (Double × Double))
    (hn : samples.length < UINT_RANGE) :
    ∀ (fuel i : Nat) (col : List Double), col.length = samples.length → i ≤ samples.length →
      samples.length - i < fuel →
      copyLoop sel samples fuel i col = Except.ok (col.take i ++ (samples.map sel).drop i) := by
  intro fuel
  induction fuel with
  | zero => intro i col _ _ h; omega
  | succ fuel ih =>
    intro i col hc hi hf
    unfold copyLoop
    by_cases hlt : i < samples.length
    · have hmod : (i + 1) % UINT_RANGE = i + 1 := Nat.mod_eq_of_lt (by omega)
      have hic : i < col.length := by omega
      rw [if_pos hlt, List.getElem?_eq_getElem hlt]
      simp only [if_pos hic, hmod]
      rw [ih (i + 1) _ (by simp [hc]) (by omega) (by omega)]
      congr 1
      apply List.ext_getElem?
      intro j
      simp only [List.getElem?_append, List.length_take, List.length_set, List.getElem?_take,
        List.getElem?_drop, List.getElem?_set, List.getElem?_map]
      have e1 : min (i + 1) col.length = i + 1 := by omega
      have e2 : min i col.length = i := by omega
      rw [e1, e2]
      rcases Nat.lt_trichotomy j i with h | h | h
      · have h1 : j < i + 1 := by omega
        have h3 : i ≠ j := by omega
        simp [h1, h3, h]
      · subst h
        simp [hic, List.getElem?_eq_getElem hlt]
      · have h1 : ¬ j < i + 1 := by omega
        have h2 : ¬ j < i := by omega
        simp only [h1, h2, if_false]
        congr 2
        omega
    · have : i = samples.length := by omega
      subst this
      rw [if_neg hlt]
      simp [← hc]

/-- From `2 ^ 32` samples on the loop condition `i < samples.size()` never fails: the counter
stays below `2 ^ 32`, and no amount of fuel makes the loop return. -/
theorem copyLoop_diverges (sel : Double × Double → Double) (samples : List (Double × Double))
    (hn : UINT_RANGE ≤ samples.length) :
    ∀ (fuel i : Nat) (col : List Double), col.length = samples.length → i < UINT_RANGE →
      copyLoop sel samples fuel i col = Except.error Fault.outOfFuel := by
  intro fuel
  induction fuel with
  | zero => intro i col _ _; rfl
  | succ fuel ih =>
    intro i col hc hi
    unfold copyLoop
    have hlt : i < samples.length := by omega
    have hic : i < col.length := by omega
    rw [if_pos hlt, List.getElem?_eq_getElem hlt]
    simp only [if_pos hic]
    exact ih _ _ (by simp [hc]) (Nat.mod_lt _ (by unfold UINT_RANGE; omega))

/-- The loop started at counter `0` on a column of the log's length returns the log's column. -/
theorem copyLoop_zero (sel : Double × Double → Double) (samples : List (Double × Double))
    (hn : samples.length < UINT_RANGE) (fuel : Nat) (hf : samples.length < fuel)
    (col : List Double) (hc : col.length = samples.length) :
    copyLoop sel samples fuel 0 col = Except.ok (samples.map sel) := by
  rw [copyLoop_ok sel samples hn fuel 0 col hc (Nat.zero_le _) (by omega)]
  simp

/-- What `getDepths()` does below `2 ^ 32` samples, in any state. -/
theorem getDepths_eq (junk : Nat → Double) (fuel : Nat) (p : SoundVelocityProfile)
    (hn : p.samples.length < UINT_RANGE) (hf : p.samples.length < fuel) :
    getDepths junk fuel p =
      if p.depths.length % UINT_RANGE ≠ p.samples.length then
        Except.ok (depthColumn p.samples, { p with depths := depthColumn p.samples })
      else Except.ok (p.depths, p) := by
  unfold getDepths
  split
  · rw [copyLoop_zero Prod.fst p.samples hn fuel hf _ (resize_length _ _ _)]
    rfl
  · rfl

/-- What `getSpeeds()` does below `2 ^ 32` samples, in any state. -/
theorem getSpeeds_eq (junk : Nat → Double) (fuel : Nat) (p : SoundVelocityProfile)
    (hn : p.samples.length < UINT_RANGE) (hf : p.samples.length < fuel) :
    getSpeeds junk fuel p =
      if p.speeds.length % UINT_RANGE ≠ p.samples.length then
        Except.ok (speedColumn p.samples, { p with speeds := speedColumn p.samples })
      else Except.ok (p.speeds, p) := by
  unfold getSpeeds
  split
  · rw [copyLoop_zero Prod.snd p.samples hn fuel hf _ (resize_length _ _ _)]
    rfl
  · rfl

/-- From `2 ^ 32` samples on `getDepths()` does not return, whatever the fuel. -/
theorem getDepths_diverges (junk : Nat → Double) (fuel : Nat) (p : SoundVelocityProfile)
    (hn : UINT_RANGE ≤ p.samples.length) :
    getDepths junk fuel p = Except.error Fault.outOfFuel := by
  unfold getDepths
  have hmod : p.depths.length % UINT_RANGE < UINT_RANGE :=
    Nat.mod_lt _ (by unfold UINT_RANGE; omega)
  rw [if_pos (by omega)]
  rw [copyLoop_diverges Prod.fst p.samples hn fuel 0 _ (resize_length _ _ _)
    (by unfold UINT_RANGE; omega)]

/-- From `2 ^ 32` samples on `getSpeeds()` does not return, whatever the fuel. -/
theorem getSpeeds_diverges (junk : Nat → Double) (fuel : Nat) (p : SoundVelocityProfile)
    (hn : UINT_RANGE ≤ p.samples.length) :
    getSpeeds junk fuel p = Except.error Fault.outOfFuel := by
  unfold getSpeeds
  have hmod : p.speeds.length % UINT_RANGE < UINT_RANGE :=
    Nat.mod_lt _ (by unfold UINT_RANGE; omega)
  rw [if_pos (by omega)]
  rw [copyLoop_diverges Prod.snd p.samples hn fuel 0 _ (resize_length _ _ _)
    (by unfold UINT_RANGE; omega)]

/-- An initial segment of a list that has the list's length is the list. -/
theorem eq_of_prefix_of_length {α : Type} {l₁ l₂ : List α} (h : l₁ <+: l₂)
    (hl : l₁.length = l₂.length) : l₁ = l₂ := by
  obtain ⟨t, rfl⟩ := h
  have ht : t = [] := by simpa using hl
  simp [ht]

/-- Under the initial-segment invariant and below `2 ^ 32` samples, `getDepths()` returns the
log's depth column and stores it; nothing else changes. -/
theorem getDepths_inv (junk : Nat → Double) (fuel : Nat) (p : SoundVelocityProfile)
    (hinv : PrefixInv p) (hn : p.samples.length < UINT_RANGE) (hf : p.samples.length < fuel) :
    getDepths junk fuel p =
      Except.ok (depthColumn p.samples, { p with depths := depthColumn p.samples }) := by
  rw [getDepths_eq junk fuel p hn hf]
  split
  · rfl
  · rename_i h
    have hle : p.depths.length ≤ p.samples.length := by
      have := hinv.1.length_le
      simpa [depthColumn] using this
    have hlen : p.depths.length = p.samples.length := by
      have := Nat.mod_eq_of_lt (Nat.lt_of_le_of_lt hle hn)
      omega
    have heq : p.depths = depthColumn p.samples :=
      eq_of_prefix_of_length hinv.1 (by simpa [depthColumn] using hlen)
    rw [← heq]

/-- Under the initial-segment invariant and below `2 ^ 32` samples, `getSpeeds()` returns the
log's speed column and stores it; nothing else changes. -/
theorem getSpeeds_inv (junk : Nat → Double) (fuel : Nat) (p : SoundVelocityProfile)
    (hinv : PrefixInv p) (hn : p.samples.length < UINT_RANGE) (hf : p.samples.length < fuel) :
    getSpeeds junk fuel p =
      Except.ok (speedColumn p.samples, { p with speeds := speedColumn p.samples }) := by
  rw [getSpeeds_eq junk fuel p hn hf]
  split
  · rfl
  · rename_i h
    have hle : p.speeds.length ≤ p.samples.length := by
      have := hinv.2.length_le
      simpa [speedColumn] using this
    have hlen : p.speeds.length = p.samples.length := by
      have := Nat.mod_eq_of_lt (Nat.lt_of_le_of_lt hle hn)
      omega
    have heq : p.speeds = speedColumn p.samples :=
      eq_of_prefix_of_length hinv.2 (by simpa [speedColumn] using hlen)
    rw [← heq]

end SoundVelocityProfile

/-! ## Sequences of calls -/

namespace SoundVelocityProfile

/-- More fuel does not change a result already obtained. -/
theorem copyLoop_fuel_succ (sel : Double × Double → Double) (samples : List (Double × Double)) :
    ∀ (fuel i : Nat) (col res : List Double),
      copyLoop sel samples fuel i col = Except.ok res →
      copyLoop sel samples (fuel + 1) i col = Except.ok res := by
  intro fuel
  induction fuel with
  | zero => intro i col res h; simp [copyLoop] at h
  | succ fuel ih =>
    intro i col res h
    unfold copyLoop at h ⊢
    by_cases hlt : i < samples.length
    · rw [if_pos hlt] at h ⊢
      cases hs : samples[i]? with
      | none => rw [hs] at h; simp at h
      | some smp =>
        rw [hs] at h
        simp only at h ⊢
        by_cases hic : i < col.length
        · rw [if_pos hic] at h ⊢
          exact ih _ _ _ h
        · rw [if_neg hic] at h
          simp at h
    · rw [if_neg hlt] at h ⊢
      exact h

/-- More fuel does not change a result already obtained. -/
theorem copyLoop_fuel_add (sel : Double × Double → Double) (samples : List (Double × Double))
    (fuel i : Nat) (col res : List Double)
    (h : copyLoop sel samples fuel i col = Except.ok res) (k : Nat) :
    copyLoop sel samples (fuel + k) i col = Except.ok res := by
  induction k with
  | zero => exact h
  | succ k ih => exact copyLoop_fuel_succ sel samples (fuel + k) i col res ih

/-- A result of the loop started at counter `0` on a column of the log's length is the log's
column, and the log then has fewer than `2 ^ 32` samples. -/
theorem copyLoop_sound (sel : Double × Double → Double) (samples : List (Double × Double))
    (fuel : Nat) (col res : List Double) (hc : col.length = samples.length)
    (h : copyLoop sel samples fuel 0 col = Except.ok res) :
    samples.length < UINT_RANGE ∧ res = samples.map sel := by
  by_cases hn : samples.length < UINT_RANGE
  · refine ⟨hn, ?_⟩
    have h1 := copyLoop_fuel_add sel samples fuel 0 col res h (samples.length + 1)
    rw [copyLoop_zero sel samples hn _ (by omega) col hc] at h1
    injection h1 with h1
    exact h1.symm
  · rw [copyLoop_diverges sel samples (by omega) fuel 0 col hc
      (by unfold UINT_RANGE; omega)] at h
    simp at h

/-- When `getDepths()` returns, the log has fewer than `2 ^ 32` samples, the column returned is
the stored one, and the state differs from the state before in `depths` at most: the log's
column on a length mismatch, the old column otherwise. -/
theorem getDepths_sound (junk : Nat → Double) (fuel : Nat) (p p' : SoundVelocityProfile)
    (col : List Double) (h : getDepths junk fuel p = Except.ok (col, p')) :
    p.samples.length < UINT_RANGE ∧ p' = { p with depths := col } ∧
      col = if p.depths.length % UINT_RANGE ≠ p.samples.length then depthColumn p.samples
        else p.depths := by
  unfold getDepths at h
  by_cases hm : p.depths.length % UINT_RANGE ≠ p.samples.length
  · rw [if_pos hm] at h
    rw [if_pos hm]
    cases hl : copyLoop Prod.fst p.samples fuel 0 (resize junk p.depths p.samples.length) with
    | error f => rw [hl] at h; simp at h
    | ok res =>
      rw [hl] at h
      simp only [Except.ok.injEq, Prod.mk.injEq] at h
      obtain ⟨hn, hr⟩ := copyLoop_sound Prod.fst p.samples fuel _ res (resize_length _ _ _) hl
      refine ⟨hn, ?_, ?_⟩
      · rw [← h.1, ← h.2]
      · rw [← h.1, hr]; rfl
  · rw [if_neg hm] at h
    rw [if_neg hm]
    simp only [Except.ok.injEq, Prod.mk.injEq] at h
    have hmod : p.depths.length % UINT_RANGE < UINT_RANGE :=
      Nat.mod_lt _ (by unfold UINT_RANGE; omega)
    refine ⟨by omega, ?_, h.1.symm⟩
    rw [← h.1, ← h.2]

/-- When `getSpeeds()` returns, the log has fewer than `2 ^ 32` samples, the column returned is
the stored one, and the state differs from the state before in `speeds` at most: the log's
column on a length mismatch, the old column otherwise. -/
theorem getSpeeds_sound (junk : Nat → Double) (fuel : Nat) (p p' : SoundVelocityProfile)
    (col : List Double) (h : getSpeeds junk fuel p = Except.ok (col, p')) :
    p.samples.length < UINT_RANGE ∧ p' = { p with speeds := col } ∧
      col = if p.speeds.length % UINT_RANGE ≠ p.samples.length then speedColumn p.samples
        else p.speeds := by
  unfold getSpeeds at h
  by_cases hm : p.speeds.length % UINT_RANGE ≠ p.samples.length
  · rw [if_pos hm] at h
    rw [if_pos hm]
    cases hl : copyLoop Prod.snd p.samples fuel 0 (resize junk p.speeds p.samples.length) with
    | error f => rw [hl] at h; simp at h
    | ok res =>
      rw [hl] at h
      simp only [Except.ok.injEq, Prod.mk.injEq] at h
      obtain ⟨hn, hr⟩ := copyLoop_sound Prod.snd p.samples fuel _ res (resize_length _ _ _) hl
      refine ⟨hn, ?_, ?_⟩
      · rw [← h.1, ← h.2]
      · rw [← h.1, hr]; rfl
  · rw [if_neg hm] at h
    rw [if_neg hm]
    simp only [Except.ok.injEq, Prod.mk.injEq] at h
    have hmod : p.speeds.length % UINT_RANGE < UINT_RANGE :=
      Nat.mod_lt _ (by unfold UINT_RANGE; omega)
    refine ⟨by omega, ?_, h.1.symm⟩
    rw [← h.1, ← h.2]

end SoundVelocityProfile

/-! ## The initial-segment invariant along a sequence of calls -/

namespace SoundVelocityProfile

/-- A freshly constructed profile satisfies the invariant. -/
theorem prefixInv_construct (ts : Nat) (dr : Double) : PrefixInv (construct ts dr) := by
  constructor <;> simp [construct, depthColumn, speedColumn]

/-- The member `add` keeps the invariant. -/
theorem prefixInv_add (p : SoundVelocityProfile) (d s : Double) (h : PrefixInv p) :
    PrefixInv (p.add d s) := by
  obtain ⟨h1, h2⟩ := h
  constructor
  · simp only [add, depthColumn, List.map_append]
    exact h1.trans (List.prefix_append _ _)
  · simp only [add, speedColumn, List.map_append]
    exact h2.trans (List.prefix_append _ _)

/-- The state `getSize()` leaves is the state `getDepths()` leaves. -/
theorem exec_getSize (fuel : Nat) (p : SoundVelocityProfile) (junk : Nat → Double) :
    exec fuel p (Call.getSize junk) = exec fuel p (Call.getDepths junk) := by
  simp only [exec, getSize]
  cases getDepths junk fuel p with
  | error f => rfl
  | ok r => rfl

/-- One call that returns keeps the invariant and lengthens the log by one if it is an `add`
and not at all otherwise. -/
theorem exec_sound (fuel : Nat) (p p' : SoundVelocityProfile) (c : Call)
    (h : exec fuel p c = Except.ok p') :
    (PrefixInv p → PrefixInv p') ∧
      p'.samples.length = p.samples.length + countAdds [c] := by
  cases c with
  | add d s =>
    simp only [exec, Except.ok.injEq] at h
    subst h
    exact ⟨prefixInv_add p d s, by simp [add, countAdds, Call.isAdd]⟩
  | getDepths junk =>
    simp only [exec] at h
    cases hg : getDepths junk fuel p with
    | error f => rw [hg] at h; simp [Except.map] at h
    | ok r =>
      obtain ⟨col, q⟩ := r
      rw [hg] at h
      simp only [Except.map, Except.ok.injEq] at h
      subst h
      obtain ⟨-, hq, hcol⟩ := getDepths_sound junk fuel p q col hg
      subst hq
      refine ⟨fun hinv => ⟨?_, hinv.2⟩, by simp [countAdds, Call.isAdd]⟩
      show col <+: depthColumn p.samples
      rw [hcol]
      split
      · exact List.prefix_refl _
      · exact hinv.1
  | getSpeeds junk =>
    simp only [exec] at h
    cases hg : getSpeeds junk fuel p with
    | error f => rw [hg] at h; simp [Except.map] at h
    | ok r =>
      obtain ⟨col, q⟩ := r
      rw [hg] at h
      simp only [Except.map, Except.ok.injEq] at h
      subst h
      obtain ⟨-, hq, hcol⟩ := getSpeeds_sound junk fuel p q col hg
      subst hq
      refine ⟨fun hinv => ⟨hinv.1, ?_⟩, by simp [countAdds, Call.isAdd]⟩
      show col <+: speedColumn p.samples
      rw [hcol]
      split
      · exact List.prefix_refl _
      · exact hinv.2
  | getSize junk =>
    rw [exec_getSize] at h
    simp only [exec] at h
    cases hg : getDepths junk fuel p with
    | error f => rw [hg] at h; simp [Except.map] at h
    | ok r =>
      obtain ⟨col, q⟩ := r
      rw [hg] at h
      simp only [Except.map, Except.ok.injEq] at h
      subst h
      obtain ⟨-, hq, hcol⟩ := getDepths_sound junk fuel p q col hg
      subst hq
      refine ⟨fun hinv => ⟨?_, hinv.2⟩, by simp [countAdds, Call.isAdd]⟩
      show col <+: depthColumn p.samples
      rw [hcol]
      split
      · exact List.prefix_refl _
      · exact hinv.1
  | setLatitude l =>
    simp only [exec, Except.ok.injEq] at h
    subst h
    exact ⟨fun hinv => hinv, by simp [setLatitude, countAdds, Call.isAdd]⟩
  | setLongitude l =>
    simp only [exec, Except.ok.injEq] at h
    subst h
    exact ⟨fun hinv => hinv, by simp [setLongitude, countAdds, Call.isAdd]⟩
  | setTimestamp t =>
    simp only [exec, Except.ok.injEq] at h
    subst h
    exact ⟨fun hinv => hinv, by simp [setTimestamp, countAdds, Call.isAdd]⟩

/-- The number of `add` calls of a sequence with one more call in front. -/
theorem countAdds_cons (c : Call) (cs : List Call) :
    countAdds (c :: cs) = countAdds [c] + countAdds cs := by
  unfold countAdds
  cases h : c.isAdd
  · simp [List.filter, h]
  · simp [List.filter, h]
    omega

/-- A sequence of calls that returns keeps the invariant and lengthens the log by the number
of its `add` calls. -/
theorem run_sound (fuel : Nat) (cs : List Call) :
    ∀ (p p' : SoundVelocityProfile), run fuel p cs = Except.ok p' →
      (PrefixInv p → PrefixInv p') ∧
        p'.samples.length = p.samples.length + countAdds cs := by
  induction cs with
  | nil =>
    intro p p' h
    simp only [run, Except.ok.injEq] at h
    subst h
    exact ⟨fun hinv => hinv, by simp [countAdds]⟩
  | cons c cs ih =>
    intro p p' h
    unfold run at h
    cases he : exec fuel p c with
    | error f => rw [he] at h; simp at h
    | ok q =>
      rw [he] at h
      simp only at h
      obtain ⟨h1, h2⟩ := exec_sound fuel p q c he
      obtain ⟨h3, h4⟩ := ih q p' h
      refine ⟨fun hinv => h3 (h1 hinv), ?_⟩
      rw [h4, h2, countAdds_cons c cs]
      omega

/-- Every reachable state satisfies the invariant. -/
theorem prefixInv_of_reachable (p : SoundVelocityProfile) (h : Reachable p) : PrefixInv p := by
  obtain ⟨ts, dr, fuel, cs, hr⟩ := h
  exact (run_sound fuel cs _ _ hr).1 (prefixInv_construct ts dr)

/-- One call returns when the log stays below `2 ^ 32` samples and the fuel exceeds the
length of the log. -/
theorem exec_total (fuel : Nat) (p : SoundVelocityProfile) (c : Call) (hinv : PrefixInv p)
    (hn : p.samples.length < UINT_RANGE) (hf : p.samples.length < fuel) :
    ∃ p', exec fuel p c = Except.ok p' := by
  cases c with
  | add d s => exact ⟨_, rfl⟩
  | getDepths junk =>
    exact ⟨_, by simp only [exec, getDepths_inv junk fuel p hinv hn hf]; rfl⟩
  | getSpeeds junk =>
    exact ⟨_, by simp only [exec, getSpeeds_inv junk fuel p hinv hn hf]; rfl⟩
  | getSize junk =>
    exact ⟨_, by rw [exec_getSize]; simp only [exec, getDepths_inv junk fuel p hinv hn hf]; rfl⟩
  | setLatitude l => exact ⟨_, rfl⟩
  | setLongitude l => exact ⟨_, rfl⟩
  | setTimestamp t => exact ⟨_, rfl⟩

/-- A sequence of calls returns when the log stays below `2 ^ 32` samples and the fuel
exceeds the final length of the log. -/
theorem run_total (fuel : Nat) (cs : List Call) :
    ∀ (p : SoundVelocityProfile), PrefixInv p →
      p.samples.length + countAdds cs < UINT_RANGE →
      p.samples.length + countAdds cs < fuel →
      ∃ p', run fuel p cs = Except.ok p' := by
  induction cs with
  | nil => intro p _ _ _; exact ⟨p, rfl⟩
  | cons c cs ih =>
    intro p hinv hn hf
    rw [countAdds_cons c cs] at hn hf
    obtain ⟨q, hq⟩ := exec_total fuel p c hinv (by omega) (by omega)
    obtain ⟨h1, h2⟩ := exec_sound fuel p q c hq
    obtain ⟨p', hp'⟩ := ih q (h1 hinv) (by omega) (by omega)
    exact ⟨p', by unfold run; rw [hq]; exact hp'⟩

/-- The calls of a sequence can be made in two batches. -/
theorem run_append (fuel : Nat) (cs₁ cs₂ : List Call) :
    ∀ (p : SoundVelocityProfile), run fuel p (cs₁ ++ cs₂) =
      match run fuel p cs₁ with
      | Except.ok q => run fuel q cs₂
      | Except.error f => Except.error f := by
  induction cs₁ with
  | nil => intro p; rfl
  | cons c cs ih =>
    intro p
    simp only [List.cons_append, run]
    cases exec fuel p c with
    | error f => rfl
    | ok q => exact ih q

/-- An initial part of a sequence of calls has no more `add` calls than the sequence. -/
theorem countAdds_take_le (cs : List Call) (k : Nat) : countAdds (cs.take k) ≤ countAdds cs :=
  ((List.take_sublist k cs).filter _).length_le

/-- The calls `add(x.1, x.2)` for `x` in `xs` append `xs` to the log and change nothing else. -/
theorem addAll_eq (xs : List (Double × Double)) :
    ∀ p : SoundVelocityProfile, addAll p xs = { p with samples := p.samples ++ xs } := by
  induction xs with
  | nil => intro p; simp [addAll]
  | cons x xs ih =>
    intro p
    have := ih (p.add x.1 x.2)
    simp only [addAll, List.foldl_cons] at this ⊢
    rw [this]
    simp [add]

end SoundVelocityProfile

/-! ## The claims -/

namespace SoundVelocityProfile

/-- A run of `n` equal `add` calls appends `n` copies of the sample to the log. -/
theorem run_replicate_add (fuel : Nat) (d s : Double) (n : Nat) :
    ∀ p : SoundVelocityProfile, run fuel p (List.replicate n (Call.add d s)) =
      Except.ok { p with samples := p.samples ++ List.replicate n (d, s) } := by
  induction n with
  | zero => intro p; simp [run]
  | succ n ih =>
    intro p
    rw [List.replicate_succ]
    unfold run
    simp only [exec]
    rw [ih]
    simp [add, List.replicate_succ]

/-- C1 (amended): for every sequence of fewer than `2 ^ 32` calls `add(d_i, s_i)` made on a
freshly constructed profile, a subsequent `getDepths()` returns (once the fuel exceeds `n`) a
column of length exactly `n` whose element `i` is `d_i`, and a subsequent `getSpeeds()` returns
a column of length exactly `n` whose element `i` is `s_i`. -/
theorem C1_columns_after_adds (ts : Nat) (dr : Double) (xs : List (Double × Double))
    (junk : Nat → Double) (fuel : Nat)
    (hn : xs.length < UINT_RANGE) (hf : xs.length < fuel) :
    (∃ col p', getDepths junk fuel (addAll (construct ts dr) xs) = Except.ok (col, p') ∧
        col.length = xs.length ∧ ∀ i, i < xs.length → col[i]? = xs[i]?.map Prod.fst) ∧
    (∃ col p', getSpeeds junk fuel (addAll (construct ts dr) xs) = Except.ok (col, p') ∧
        col.length = xs.length ∧ ∀ i, i < xs.length → col[i]? = xs[i]?.map Prod.snd) := by
  have hs : (addAll (construct ts dr) xs).samples = xs := by
    rw [addAll_eq]; simp [construct]
  have hd : (addAll (construct ts dr) xs).depths = [] := by
    rw [addAll_eq]; simp [construct]
  have hsp : (addAll (construct ts dr) xs).speeds = [] := by
    rw [addAll_eq]; simp [construct]
  have hinv : PrefixInv (addAll (construct ts dr) xs) := by
    constructor
    · rw [hd]; exact List.nil_prefix
    · rw [hsp]; exact List.nil_prefix
  constructor
  · refine ⟨_, _, getDepths_inv junk fuel _ hinv (by rw [hs]; exact hn) (by rw [hs]; exact hf),
      ?_, ?_⟩
    · simp [depthColumn, hs]
    · intro i _; simp [depthColumn, hs]
  · refine ⟨_, _, getSpeeds_inv junk fuel _ hinv (by rw [hs]; exact hn) (by rw [hs]; exact hf),
      ?_, ?_⟩
    · simp [speedColumn, hs]
    · intro i _; simp [speedColumn, hs]

/-- C1, concrete instance: after `add(1.0, 1500.0)`, `add(2.0, 1501.2)`, `add(3.5, 1502.0)` on
a fresh profile, `getSize()` is `3`, `getDepths()` is `[1.0, 2.0, 3.5]` and `getSpeeds()` is
`[1500.0, 1501.2, 1502.0]`. -/
theorem C1_columns_after_adds_witness :
    (exampleSamples.length < UINT_RANGE ∧ exampleSamples.length < 4) ∧
    ((∃ col p', getDepths exampleJunk 4 (addAll (construct 0 Double.nan) exampleSamples)
          = Except.ok (col, p') ∧
        col.length = exampleSamples.length ∧
        ∀ i, i < exampleSamples.length → col[i]? = exampleSamples[i]?.map Prod.fst) ∧
      (∃ col p', getSpeeds exampleJunk 4 (addAll (construct 0 Double.nan) exampleSamples)
          = Except.ok (col, p') ∧
        col.length = exampleSamples.length ∧
        ∀ i, i < exampleSamples.length → col[i]? = exampleSamples[i]?.map Prod.snd)) ∧
    (getSize exampleJunk 4 (addAll (construct 0 Double.nan) exampleSamples)).map Prod.fst
      = Except.ok 3 ∧
    (getDepths exampleJunk 4 (addAll (construct 0 Double.nan) exampleSamples)).map Prod.fst
      = Except.ok [Double.ofDecimal 10 1, Double.ofDecimal 20 1, Double.ofDecimal 35 1] ∧
    (getSpeeds exampleJunk 4 (addAll (construct 0 Double.nan) exampleSamples)).map Prod.fst
      = Except.ok [Double.ofDecimal 15000 1, Double.ofDecimal 15012 1,
          Double.ofDecimal 15020 1] :=
  ⟨⟨by decide, by decide⟩,
    C1_columns_after_adds 0 Double.nan exampleSamples exampleJunk 4 (by decide) (by decide),
    by rfl, by rfl, by rfl⟩

/-- C1 as stated fails at `n = 2 ^ 32`: after `2 ^ 32` calls `add(0.0, 1500.0)` on a fresh
profile the 32-bit counter of the copy loop never reaches the length of the log, and
`getDepths()` returns no column, whatever the fuel. -/
theorem C1_counterexample :
    ¬ ∃ fuel col p', getDepths exampleJunk fuel
        (addAll (construct 0 Double.nan) (List.replicate UINT_RANGE surfaceSample))
        = Except.ok (col, p') := by
  rintro ⟨fuel, col, p', h⟩
  rw [getDepths_diverges] at h
  · simp at h
  · rw [addAll_eq]
    simp [construct]

/-- A sequence of `n` equal `add` calls has `n` `add` calls. -/
theorem countAdds_replicate_add (d s : Double) (n : Nat) :
    countAdds (List.replicate n (Call.add d s)) = n := by
  induction n with
  | zero => simp [countAdds]
  | succ n ih =>
    rw [List.replicate_succ, countAdds_cons, ih]
    simp [countAdds, Call.isAdd]
    omega

/-- The value `getSize()` returns in a state that satisfies the invariant, below `2 ^ 32`
samples: the length of the log. -/
theorem getSize_inv (junk : Nat → Double) (fuel : Nat) (p : SoundVelocityProfile)
    (hinv : PrefixInv p) (hn : p.samples.length < UINT_RANGE) (hf : p.samples.length < fuel) :
    getSize junk fuel p =
      Except.ok (p.samples.length, { p with depths := depthColumn p.samples }) := by
  unfold getSize
  rw [getDepths_inv junk fuel p hinv hn hf]
  simp [depthColumn, Nat.mod_eq_of_lt hn]

/-- C2 (amended): for every sequence of calls drawn from `add`, `getDepths`, `getSpeeds`,
`getSize`, `setLatitude`, `setLongitude` and `setTimestamp` that contains fewer than `2 ^ 32`
`add` calls, applied to a freshly constructed profile, and at every point `k` of the sequence,
the calls made so far return and `getSize()` returns exactly the number of `add` calls made so
far, which is the current length of the log. -/
theorem C2_getSize_counts_adds (ts : Nat) (dr : Double) (cs : List Call) (fuel : Nat)
    (hn : countAdds cs < UINT_RANGE) (hf : countAdds cs < fuel) (k : Nat)
    (junk : Nat → Double) :
    ∃ p p', run fuel (construct ts dr) (cs.take k) = Except.ok p ∧
      p.samples.length = countAdds (cs.take k) ∧
      getSize junk fuel p = Except.ok (countAdds (cs.take k), p') := by
  have hk := countAdds_take_le cs k
  have h0 : (construct ts dr).samples.length = 0 := rfl
  obtain ⟨p, hp⟩ := run_total fuel (cs.take k) (construct ts dr) (prefixInv_construct ts dr)
    (by rw [h0]; omega) (by rw [h0]; omega)
  obtain ⟨h1, h2⟩ := run_sound fuel (cs.take k) _ p hp
  rw [h0, Nat.zero_add] at h2
  refine ⟨p, { p with depths := depthColumn p.samples }, hp, h2, ?_⟩
  rw [getSize_inv junk fuel p (h1 (prefixInv_construct ts dr)) (by omega) (by omega), h2]

/-- C2, concrete instance: in the sequence `exampleCalls` (`add`, `getDepths`, `add`,
`getSpeeds`, `setLatitude`, `add`, `getSize`, `setTimestamp`), after the first six calls, three
of them `add`, `getSize()` returns `3`. -/
theorem C2_getSize_counts_adds_witness :
    (countAdds exampleCalls < UINT_RANGE ∧ countAdds exampleCalls < 4) ∧
    (∃ p p', run 4 (construct 0 Double.nan) (exampleCalls.take 6) = Except.ok p ∧
      p.samples.length = countAdds (exampleCalls.take 6) ∧
      getSize exampleJunk 4 p = Except.ok (countAdds (exampleCalls.take 6), p')) ∧
    countAdds (exampleCalls.take 6) = 3 :=
  ⟨⟨by decide, by decide⟩,
    C2_getSize_counts_adds 0 Double.nan exampleCalls 4 (by decide) (by decide) 6 exampleJunk,
    by decide⟩

/-- C2 as stated fails after `2 ^ 32` calls of `add`: the calls return, the log has `2 ^ 32`
samples, and `getSize()` returns no value, whatever the fuel. -/
theorem C2_counterexample :
    ¬ ∃ fuel p n p',
        run fuel (construct 0 Double.nan)
          (List.replicate UINT_RANGE (Call.add (Double.ofNat 0) (Double.ofNat 1500)))
          = Except.ok p ∧
        getSize exampleJunk fuel p = Except.ok (n, p') := by
  rintro ⟨fuel, p, n, p', hrun, hsize⟩
  have hlen := (run_sound fuel _ _ p hrun).2
  rw [countAdds_replicate_add] at hlen
  unfold getSize at hsize
  rw [getDepths_diverges exampleJunk fuel p (by omega)] at hsize
  simp at hsize

/-- The range of `unsigned int` is not empty. -/
theorem UINT_RANGE_pos : 0 < UINT_RANGE := by decide

/-- A profile with fewer than `2 ^ 32` equal samples and a materialised depth column is
reachable: by that many `add` calls followed by `getDepths()`. -/
theorem reachable_materializedProfile (n : Nat) (hn : n < UINT_RANGE) :
    Reachable (materializedProfile n) := by
  refine ⟨0, Double.nan, n + 1,
    List.replicate n (Call.add surfaceSample.1 surfaceSample.2) ++ [Call.getDepths exampleJunk],
    ?_⟩
  rw [run_append, run_replicate_add]
  simp only [run, exec]
  rw [getDepths_inv]
  · simp [Except.map, materializedProfile, construct, depthColumn]
  · constructor
    · exact List.nil_prefix
    · exact List.nil_prefix
  · simpa [construct] using hn
  · simp [construct]

/-- In `materializedProfile n` the depth column has the length of the log. -/
theorem materializedProfile_lengths (n : Nat) :
    (materializedProfile n).depths.length = (materializedProfile n).samples.length := by
  simp [materializedProfile]

/-- From `materializedProfile n` with `2 ^ 32 ≤ n + 1`, `add` followed by `getDepths()` does
not return. -/
theorem materializedProfile_add_diverges (n : Nat) (d s : Double) (hn : UINT_RANGE ≤ n + 1) :
    ¬ ∃ fuel col p', getDepths exampleJunk fuel ((materializedProfile n).add d s)
        = Except.ok (col, p') := by
  rintro ⟨fuel, col, p', h⟩
  rw [getDepths_diverges] at h
  · simp at h
  · simpa [add, materializedProfile] using hn

/-- C3 (amended): in every state reachable from a fresh profile whose log has fewer than
`2 ^ 32 - 1` samples (in particular one in which the column has been materialised), `add(d, s)`
followed by `getDepths()` returns a column whose length is the new length of the log (the old
length plus one), whose last element is `d`, and whose element `i` is the depth of sample `i`
for every `i`; likewise `getSpeeds()` with `s` and the speeds. -/
theorem C3_stale_column_refreshed (p : SoundVelocityProfile) (hr : Reachable p)
    (d s : Double) (junk : Nat → Double) (fuel : Nat)
    (hn : p.samples.length + 1 < UINT_RANGE) (hf : p.samples.length + 1 < fuel) :
    (∃ col p', getDepths junk fuel (p.add d s) = Except.ok (col, p') ∧
        p'.samples = p.samples ++ [(d, s)] ∧
        col.length = p.samples.length + 1 ∧ col.getLast? = some d ∧
        ∀ i : Nat, col[i]? = p'.samples[i]?.map Prod.fst) ∧
    (∃ col p', getSpeeds junk fuel (p.add d s) = Except.ok (col, p') ∧
        p'.samples = p.samples ++ [(d, s)] ∧
        col.length = p.samples.length + 1 ∧ col.getLast? = some s ∧
        ∀ i : Nat, col[i]? = p'.samples[i]?.map Prod.snd) := by
  have hinv := prefixInv_add p d s (prefixInv_of_reachable p hr)
  have hlen : (p.add d s).samples.length = p.samples.length + 1 := by simp [add]
  constructor
  · refine ⟨_, _, getDepths_inv junk fuel _ hinv (by omega) (by omega), rfl, ?_, ?_, ?_⟩
    · simp [depthColumn, add]
    · simp [depthColumn, add]
    · intro i; simp [depthColumn]
  · refine ⟨_, _, getSpeeds_inv junk fuel _ hinv (by omega) (by omega), rfl, ?_, ?_, ?_⟩
    · simp [speedColumn, add]
    · simp [speedColumn, add]
    · intro i; simp [speedColumn]

/-- C3, concrete instance: from `exampleState` (two samples, both columns materialised),
`add(3.0, 1502.0)` followed by `getDepths()` or `getSpeeds()` returns a column of length 3. -/
theorem C3_stale_column_refreshed_witness :
    (Reachable exampleState ∧ exampleState.samples.length + 1 < UINT_RANGE ∧
      exampleState.samples.length + 1 < 4) ∧
    ((∃ col p', getDepths exampleJunk 4 (exampleState.add (Double.ofNat 3) (Double.ofNat 1502))
          = Except.ok (col, p') ∧
        p'.samples = exampleState.samples ++ [(Double.ofNat 3, Double.ofNat 1502)] ∧
        col.length = exampleState.samples.length + 1 ∧ col.getLast? = some (Double.ofNat 3) ∧
        ∀ i : Nat, col[i]? = p'.samples[i]?.map Prod.fst) ∧
      (∃ col p', getSpeeds exampleJunk 4 (exampleState.add (Double.ofNat 3) (Double.ofNat 1502))
          = Except.ok (col, p') ∧
        p'.samples = exampleState.samples ++ [(Double.ofNat 3, Double.ofNat 1502)] ∧
        col.length = exampleState.samples.length + 1 ∧ col.getLast? = some (Double.ofNat 1502) ∧
        ∀ i : Nat, col[i]? = p'.samples[i]?.map Prod.snd)) ∧
    (getDepths exampleJunk 4 (exampleState.add (Double.ofNat 3) (Double.ofNat 1502))).map Prod.fst
      = Except.ok [Double.ofNat 1, Double.ofNat 2, Double.ofNat 3] :=
  ⟨⟨⟨0, Double.nan, 3,
      [Call.add (Double.ofNat 1) (Double.ofNat 1500),
        Call.add (Double.ofNat 2) (Double.ofNat 1501),
        Call.getDepths exampleJunk, Call.getSpeeds exampleJunk], by rfl⟩,
      by decide, by decide⟩,
    C3_stale_column_refreshed exampleState
      ⟨0, Double.nan, 3,
        [Call.add (Double.ofNat 1) (Double.ofNat 1500),
          Call.add (Double.ofNat 2) (Double.ofNat 1501),
          Call.getDepths exampleJunk, Call.getSpeeds exampleJunk], by rfl⟩
      (Double.ofNat 3) (Double.ofNat 1502) exampleJunk 4 (by decide) (by decide),
    by rfl⟩

/-- C3 as stated fails at the reachable state with `2 ^ 32 - 1` samples and a materialised
depth column: after one more `add` the log has `2 ^ 32` samples and `getDepths()` returns no
column, whatever the fuel. -/
theorem C3_counterexample :
    Reachable (materializedProfile (UINT_RANGE - 1)) ∧
    (materializedProfile (UINT_RANGE - 1)).depths.length
      = (materializedProfile (UINT_RANGE - 1)).samples.length ∧
    ¬ ∃ fuel col p', getDepths exampleJunk fuel
        ((materializedProfile (UINT_RANGE - 1)).add (Double.ofNat 1) (Double.ofNat 1500))
        = Except.ok (col, p') :=
  ⟨reachable_materializedProfile (UINT_RANGE - 1) (Nat.sub_lt UINT_RANGE_pos Nat.one_pos),
    materializedProfile_lengths (UINT_RANGE - 1),
    materializedProfile_add_diverges (UINT_RANGE - 1) _ _
      (Nat.le_of_eq (Nat.sub_add_cancel UINT_RANGE_pos).symm)⟩

/-- C4 (amended): in every profile state whose log has fewer than `2 ^ 32` samples,
`getDepths()` returns (once the fuel exceeds the length of the log), and a second call made
right after it returns the same column and leaves the whole state exactly as the first call
left it, with any fuel: it takes the length-match branch. The same holds for `getSpeeds()`. -/
theorem C4_materialization_idempotent (p : SoundVelocityProfile) (junk junk' : Nat → Double)
    (fuel fuel' : Nat) (hn : p.samples.length < UINT_RANGE) (hf : p.samples.length < fuel) :
    (∃ col p', getDepths junk fuel p = Except.ok (col, p') ∧
        getDepths junk' fuel' p' = Except.ok (col, p')) ∧
    (∃ col p', getSpeeds junk fuel p = Except.ok (col, p') ∧
        getSpeeds junk' fuel' p' = Except.ok (col, p')) := by
  constructor
  · rw [getDepths_eq junk fuel p hn hf]
    by_cases hm : p.depths.length % UINT_RANGE ≠ p.samples.length
    · rw [if_pos hm]
      refine ⟨_, _, rfl, ?_⟩
      unfold getDepths
      rw [if_neg]
      simp [depthColumn, Nat.mod_eq_of_lt hn]
    · rw [if_neg hm]
      refine ⟨_, _, rfl, ?_⟩
      unfold getDepths
      rw [if_neg hm]
  · rw [getSpeeds_eq junk fuel p hn hf]
    by_cases hm : p.speeds.length % UINT_RANGE ≠ p.samples.length
    · rw [if_pos hm]
      refine ⟨_, _, rfl, ?_⟩
      unfold getSpeeds
      rw [if_neg]
      simp [speedColumn, Nat.mod_eq_of_lt hn]
    · rw [if_neg hm]
      refine ⟨_, _, rfl, ?_⟩
      unfold getSpeeds
      rw [if_neg hm]

/-- C4, concrete instance: on the fresh profile with the three example samples, two calls of
`getDepths()` in a row return the same column and the second leaves the state as it was. -/
theorem C4_materialization_idempotent_witness :
    ((addAll (construct 0 Double.nan) exampleSamples).samples.length < UINT_RANGE ∧
      (addAll (construct 0 Double.nan) exampleSamples).samples.length < 4) ∧
    ((∃ col p', getDepths exampleJunk 4 (addAll (construct 0 Double.nan) exampleSamples)
          = Except.ok (col, p') ∧
        getDepths exampleJunk 0 p' = Except.ok (col, p')) ∧
      (∃ col p', getSpeeds exampleJunk 4 (addAll (construct 0 Double.nan) exampleSamples)
          = Except.ok (col, p') ∧
        getSpeeds exampleJunk 0 p' = Except.ok (col, p'))) :=
  ⟨⟨by decide, by decide⟩,
    C4_materialization_idempotent (addAll (construct 0 Double.nan) exampleSamples)
      exampleJunk exampleJunk 4 0 (by decide) (by decide)⟩

/-- C4 as stated fails in the state with `2 ^ 32` samples: the first call of `getDepths()`
returns nothing, whatever the fuel, and so does the first call of `getSpeeds()`; there is no
pair of returned columns to compare. -/
theorem C4_counterexample :
    (¬ ∃ fuel col p', getDepths exampleJunk fuel
        { construct 0 Double.nan with samples := List.replicate UINT_RANGE surfaceSample }
        = Except.ok (col, p')) ∧
    (¬ ∃ fuel col p', getSpeeds exampleJunk fuel
        { construct 0 Double.nan with samples := List.replicate UINT_RANGE surfaceSample }
        = Except.ok (col, p')) := by
  constructor
  · rintro ⟨fuel, col, p', h⟩
    rw [getDepths_diverges] at h
    · simp at h
    · simp
  · rintro ⟨fuel, col, p', h⟩
    rw [getSpeeds_diverges] at h
    · simp at h
    · simp

/-- Under the invariant a column that passes the length test of its accessor is the log's
column. -/
theorem column_eq_of_hit {col full : List Double} {n : Nat} (hp : col <+: full)
    (hfull : full.length = n) (hn : n < UINT_RANGE) (hhit : ¬ col.length % UINT_RANGE ≠ n) :
    col = full := by
  have hle : col.length ≤ n := hfull ▸ hp.length_le
  have hmod := Nat.mod_eq_of_lt (Nat.lt_of_le_of_lt hle hn)
  exact eq_of_prefix_of_length hp (by omega)

/-- A call other than `add` that returns leaves the log as it is, and leaves each column as it
is or equal to the log's column. -/
theorem exec_noAdd (fuel : Nat) (q q' : SoundVelocityProfile) (c : Call)
    (h : exec fuel q c = Except.ok q') (hc : countAdds [c] = 0) :
    q'.samples = q.samples ∧ (q'.depths = q.depths ∨ q'.depths = depthColumn q.samples) ∧
      (q'.speeds = q.speeds ∨ q'.speeds = speedColumn q.samples) := by
  cases c with
  | add d s => simp [countAdds, Call.isAdd] at hc
  | getDepths junk =>
    simp only [exec] at h
    cases hg : getDepths junk fuel q with
    | error f => rw [hg] at h; simp [Except.map] at h
    | ok r =>
      obtain ⟨col, q1⟩ := r
      rw [hg] at h
      simp only [Except.map, Except.ok.injEq] at h
      subst h
      obtain ⟨-, hq, hcol⟩ := getDepths_sound junk fuel q q1 col hg
      subst hq
      refine ⟨rfl, ?_, Or.inl rfl⟩
      show col = q.depths ∨ col = depthColumn q.samples
      rw [hcol]
      split
      · exact Or.inr rfl
      · exact Or.inl rfl
  | getSpeeds junk =>
    simp only [exec] at h
    cases hg : getSpeeds junk fuel q with
    | error f => rw [hg] at h; simp [Except.map] at h
    | ok r =>
      obtain ⟨col, q1⟩ := r
      rw [hg] at h
      simp only [Except.map, Except.ok.injEq] at h
      subst h
      obtain ⟨-, hq, hcol⟩ := getSpeeds_sound junk fuel q q1 col hg
      subst hq
      refine ⟨rfl, Or.inl rfl, ?_⟩
      show col = q.speeds ∨ col = speedColumn q.samples
      rw [hcol]
      split
      · exact Or.inr rfl
      · exact Or.inl rfl
  | getSize junk =>
    rw [exec_getSize] at h
    simp only [exec] at h
    cases hg : getDepths junk fuel q with
    | error f => rw [hg] at h; simp [Except.map] at h
    | ok r =>
      obtain ⟨col, q1⟩ := r
      rw [hg] at h
      simp only [Except.map, Except.ok.injEq] at h
      subst h
      obtain ⟨-, hq, hcol⟩ := getDepths_sound junk fuel q q1 col hg
      subst hq
      refine ⟨rfl, ?_, Or.inl rfl⟩
      show col = q.depths ∨ col = depthColumn q.samples
      rw [hcol]
      split
      · exact Or.inr rfl
      · exact Or.inl rfl
  | setLatitude l =>
    simp only [exec, Except.ok.injEq] at h
    subst h
    exact ⟨rfl, Or.inl rfl, Or.inl rfl⟩
  | setLongitude l =>
    simp only [exec, Except.ok.injEq] at h
    subst h
    exact ⟨rfl, Or.inl rfl, Or.inl rfl⟩
  | setTimestamp t =>
    simp only [exec, Except.ok.injEq] at h
    subst h
    exact ⟨rfl, Or.inl rfl, Or.inl rfl⟩

/-- Under the invariant, `getDepths()` or `getSize()` that returns leaves the depth column
equal to the log's depth column. -/
theorem exec_depths_materialized (fuel : Nat) (q q' : SoundVelocityProfile)
    (junk : Nat → Double) (hinv : PrefixInv q)
    (h : exec fuel q (Call.getDepths junk) = Except.ok q' ∨
      exec fuel q (Call.getSize junk) = Except.ok q') :
    q'.depths = depthColumn q.samples := by
  rw [exec_getSize, or_self] at h
  simp only [exec] at h
  cases hg : getDepths junk fuel q with
  | error f => rw [hg] at h; simp [Except.map] at h
  | ok r =>
    obtain ⟨col, q1⟩ := r
    rw [hg] at h
    simp only [Except.map, Except.ok.injEq] at h
    subst h
    obtain ⟨hn, hq, hcol⟩ := getDepths_sound junk fuel q q1 col hg
    subst hq
    show col = depthColumn q.samples
    rw [hcol]
    split
    · rfl
    · rename_i hm
      exact column_eq_of_hit hinv.1 (by simp [depthColumn]) hn hm

/-- Under the invariant, `getSpeeds()` that returns leaves the speed column equal to the
log's speed column. -/
theorem exec_speeds_materialized (fuel : Nat) (q q' : SoundVelocityProfile)
    (junk : Nat → Double) (hinv : PrefixInv q)
    (h : exec fuel q (Call.getSpeeds junk) = Except.ok q') :
    q'.speeds = speedColumn q.samples := by
  simp only [exec] at h
  cases hg : getSpeeds junk fuel q with
  | error f => rw [hg] at h; simp [Except.map] at h
  | ok r =>
    obtain ⟨col, q1⟩ := r
    rw [hg] at h
    simp only [Except.map, Except.ok.injEq] at h
    subst h
    obtain ⟨hn, hq, hcol⟩ := getSpeeds_sound junk fuel q q1 col hg
    subst hq
    show col = speedColumn q.samples
    rw [hcol]
    split
    · rfl
    · rename_i hm
      exact column_eq_of_hit hinv.2 (by simp [speedColumn]) hn hm

/-- Along calls other than `add` that return, from a state that satisfies the invariant: the
log is unchanged, and a column equals the log's column at the end if it did at the start or
if its accessor is among the calls. -/
theorem run_noAdd (fuel : Nat) (cs : List Call) :
    ∀ (q p : SoundVelocityProfile), PrefixInv q → countAdds cs = 0 →
      run fuel q cs = Except.ok p →
      p.samples = q.samples ∧
      ((q.depths = depthColumn q.samples ∨
          ∃ junk, Call.getDepths junk ∈ cs ∨ Call.getSize junk ∈ cs) →
        p.depths = depthColumn p.samples) ∧
      ((q.speeds = speedColumn q.samples ∨ ∃ junk, Call.getSpeeds junk ∈ cs) →
        p.speeds = speedColumn p.samples) := by
  induction cs with
  | nil =>
    intro q p _ _ h
    simp only [run, Except.ok.injEq] at h
    subst h
    simp
  | cons c cs ih =>
    intro q p hinv hc h
    rw [countAdds_cons c cs] at hc
    unfold run at h
    cases he : exec fuel q c with
    | error f => rw [he] at h; simp at h
    | ok q1 =>
      rw [he] at h
      simp only at h
      obtain ⟨hs, hd, hsp⟩ := exec_noAdd fuel q q1 c he (by omega)
      obtain ⟨h1, h2, h3⟩ := ih q1 p ((exec_sound fuel q q1 c he).1 hinv) (by omega) h
      refine ⟨h1.trans hs, ?_, ?_⟩
      · intro hyp
        apply h2
        rcases hyp with hq | ⟨junk, hm⟩
        · left
          rw [hs]
          rcases hd with hd | hd
          · rw [hd, hq]
          · exact hd
        · simp only [List.mem_cons] at hm
          rcases hm with (hm | hm) | (hm | hm)
          · left
            rw [hs]
            exact exec_depths_materialized fuel q q1 junk hinv (Or.inl (hm ▸ he))
          · exact Or.inr ⟨junk, Or.inl hm⟩
          · left
            rw [hs]
            exact exec_depths_materialized fuel q q1 junk hinv (Or.inr (hm ▸ he))
          · exact Or.inr ⟨junk, Or.inr hm⟩
      · intro hyp
        apply h3
        rcases hyp with hq | ⟨junk, hm⟩
        · left
          rw [hs]
          rcases hsp with hsp | hsp
          · rw [hsp, hq]
          · exact hsp
        · simp only [List.mem_cons] at hm
          rcases hm with hm | hm
          · left
            rw [hs]
            exact exec_speeds_materialized fuel q q1 junk hinv (hm ▸ he)
          · exact Or.inr ⟨junk, hm⟩

/-- A sequence of calls made in two batches returns only if the first batch returns. -/
theorem run_append_ok (fuel : Nat) (cs₁ cs₂ : List Call) (p r : SoundVelocityProfile)
    (h : run fuel p (cs₁ ++ cs₂) = Except.ok r) :
    ∃ q, run fuel p cs₁ = Except.ok q ∧ run fuel q cs₂ = Except.ok r := by
  rw [run_append] at h
  cases hq : run fuel p cs₁ with
  | error f => rw [hq] at h; simp at h
  | ok q => rw [hq] at h; exact ⟨q, rfl, h⟩

/-- C5 (amended): in every state reached from a fresh profile by calls `pre ++ post` where
`post` contains no `add`, the depth column has the length of the sample log if `post`
contains a `getDepths()` or a `getSize()`, and the speed column has the length of the sample
log if `post` contains a `getSpeeds()`; so `depths.length == speeds.length == samples.length`
holds when both columns have been materialised since the last `add`. -/
theorem C5_materialized_columns_have_log_length (ts : Nat) (dr : Double) (fuel : Nat)
    (pre post : List Call) (p : SoundVelocityProfile) (hpost : countAdds post = 0)
    (hrun : run fuel (construct ts dr) (pre ++ post) = Except.ok p) :
    ((∃ junk, Call.getDepths junk ∈ post ∨ Call.getSize junk ∈ post) →
      p.depths.length = p.samples.length) ∧
    ((∃ junk, Call.getSpeeds junk ∈ post) → p.speeds.length = p.samples.length) ∧
    ((∃ junk, Call.getDepths junk ∈ post ∨ Call.getSize junk ∈ post) →
      (∃ junk, Call.getSpeeds junk ∈ post) →
      p.depths.length = p.speeds.length ∧ p.speeds.length = p.samples.length) := by
  obtain ⟨q, hq, hp⟩ := run_append_ok fuel pre post _ p hrun
  have hinv : PrefixInv q := (run_sound fuel pre _ q hq).1 (prefixInv_construct ts dr)
  obtain ⟨-, hd, hs⟩ := run_noAdd fuel post q p hinv hpost hp
  have hd' : (∃ junk, Call.getDepths junk ∈ post ∨ Call.getSize junk ∈ post) →
      p.depths.length = p.samples.length := by
    intro h
    rw [hd (Or.inr h)]
    simp [depthColumn]
  have hs' : (∃ junk, Call.getSpeeds junk ∈ post) → p.speeds.length = p.samples.length := by
    intro h
    rw [hs (Or.inr h)]
    simp [speedColumn]
  exact ⟨hd', hs', fun h1 h2 => ⟨(hd' h1).trans (hs' h2).symm, hs' h2⟩⟩

/-- C5, concrete instance: `exampleState` is reached by two `add` calls followed by
`getDepths()` and `getSpeeds()`, and both its columns have the length of its log. -/
theorem C5_materialized_columns_have_log_length_witness :
    (countAdds [Call.getDepths exampleJunk, Call.getSpeeds exampleJunk] = 0 ∧
      run 3 (construct 0 Double.nan)
        ([Call.add (Double.ofNat 1) (Double.ofNat 1500),
            Call.add (Double.ofNat 2) (Double.ofNat 1501)] ++
          [Call.getDepths exampleJunk, Call.getSpeeds exampleJunk]) = Except.ok exampleState) ∧
    (((∃ junk, Call.getDepths junk ∈ [Call.getDepths exampleJunk, Call.getSpeeds exampleJunk] ∨
          Call.getSize junk ∈ [Call.getDepths exampleJunk, Call.getSpeeds exampleJunk]) →
        exampleState.depths.length = exampleState.samples.length) ∧
      ((∃ junk, Call.getSpeeds junk ∈ [Call.getDepths exampleJunk, Call.getSpeeds exampleJunk]) →
        exampleState.speeds.length = exampleState.samples.length) ∧
      ((∃ junk, Call.getDepths junk ∈ [Call.getDepths exampleJunk, Call.getSpeeds exampleJunk] ∨
          Call.getSize junk ∈ [Call.getDepths exampleJunk, Call.getSpeeds exampleJunk]) →
        (∃ junk, Call.getSpeeds junk ∈
          [Call.getDepths exampleJunk, Call.getSpeeds exampleJunk]) →
        exampleState.depths.length = exampleState.speeds.length ∧
          exampleState.speeds.length = exampleState.samples.length)) :=
  ⟨⟨by decide, by rfl⟩,
    C5_materialized_columns_have_log_length 0 Double.nan 3
      [Call.add (Double.ofNat 1) (Double.ofNat 1500),
        Call.add (Double.ofNat 2) (Double.ofNat 1501)]
      [Call.getDepths exampleJunk, Call.getSpeeds exampleJunk] exampleState
      (by decide) (by rfl)⟩

/-- C5 as stated fails right after `add(1.0, 1500.0)`, `getDepths()` on a fresh profile: the
depth column has just been materialised and no `add` has occurred since, the depth column has
the log's length `1`, and the speed column is still empty. -/
theorem C5_counterexample :
    ∃ p, run 2 (construct 0 Double.nan)
        [Call.add (Double.ofNat 1) (Double.ofNat 1500), Call.getDepths exampleJunk]
        = Except.ok p ∧
      p.depths.length = 1 ∧ p.samples.length = 1 ∧ p.speeds.length = 0 ∧
      ¬ (p.depths.length = p.speeds.length ∧ p.speeds.length = p.samples.length) :=
  ⟨{ construct 0 Double.nan with
      samples := [(Double.ofNat 1, Double.ofNat 1500)]
      depths := [Double.ofNat 1] },
    by rfl, by rfl, by rfl, by rfl, by decide⟩

/-- C6: `add(d, s)` only appends. The log afterwards is the log before followed by the single
pair `(d, s)`, for every state and every pair of doubles (no range is checked: negative
depths, zero or negative speeds, infinities and NaN included); its length grows by exactly
one, every sample that was there keeps its index and value, and the new sample is the last. -/
theorem C6_add_appends (p : SoundVelocityProfile) (d s : Double) :
    (p.add d s).samples = p.samples ++ [(d, s)] ∧
    (p.add d s).samples.length = p.samples.length + 1 ∧
    (∀ i : Nat, i < p.samples.length → (p.add d s).samples[i]? = p.samples[i]?) ∧
    (p.add d s).samples[p.samples.length]? = some (d, s) ∧
    (p.add d s).samples.take p.samples.length = p.samples := by
  refine ⟨rfl, by simp [add], ?_, by simp [add], by simp [add]⟩
  intro i hi
  simp [add, List.getElem?_append_left hi]

/-- C6, concrete instance: `add(-1.5, 0.0)` on `exampleState` (a negative depth and a zero
speed) appends that pair after the two samples already there. -/
theorem C6_add_appends_witness :
    (exampleState.add (Double.neg (Double.ofDecimal 15 1)) (Double.ofNat 0)).samples
      = [(Double.ofNat 1, Double.ofNat 1500), (Double.ofNat 2, Double.ofNat 1501),
         (Double.neg (Double.ofDecimal 15 1), Double.ofNat 0)] ∧
    (exampleState.add (Double.ofNat 3) (Double.neg (Double.ofNat 1))).samples.length = 3 :=
  ⟨(C6_add_appends exampleState (Double.neg (Double.ofDecimal 15 1)) (Double.ofNat 0)).1,
    by rfl⟩

/-- C7: `add(d, s)` recomputes nothing. It leaves the depth column, the speed column,
`timestamp`, `latitude`, `longitude` and `draft` unchanged; a column that had the length of
the log before the call is one element shorter than the log after it, and the length test of
its accessor then reports a mismatch. -/
theorem C7_add_frame (p : SoundVelocityProfile) (d s : Double) :
    (p.add d s).depths = p.depths ∧ (p.add d s).speeds = p.speeds ∧
    (p.add d s).timestamp = p.timestamp ∧ (p.add d s).latitude = p.latitude ∧
    (p.add d s).longitude = p.longitude ∧ (p.add d s).draft = p.draft ∧
    (p.depths.length = p.samples.length →
      (p.add d s).depths.length + 1 = (p.add d s).samples.length ∧
      (p.add d s).depths.length % UINT_RANGE ≠ (p.add d s).samples.length) ∧
    (p.speeds.length = p.samples.length →
      (p.add d s).speeds.length + 1 = (p.add d s).samples.length ∧
      (p.add d s).speeds.length % UINT_RANGE ≠ (p.add d s).samples.length) := by
  refine ⟨rfl, rfl, rfl, rfl, rfl, rfl, ?_, ?_⟩
  · intro h
    have hle := Nat.mod_le p.depths.length UINT_RANGE
    simp only [add, List.length_append, List.length_singleton]
    omega
  · intro h
    have hle := Nat.mod_le p.speeds.length UINT_RANGE
    simp only [add, List.length_append, List.length_singleton]
    omega

/-- C7, concrete instance: in `exampleState` both columns have the log's length 2; after
`add(3.0, 1502.0)` both still have length 2, the log has length 3, and both are stale. -/
theorem C7_add_frame_witness :
    (exampleState.depths.length = exampleState.samples.length ∧
      exampleState.speeds.length = exampleState.samples.length) ∧
    ((exampleState.add (Double.ofNat 3) (Double.ofNat 1502)).depths.length + 1
        = (exampleState.add (Double.ofNat 3) (Double.ofNat 1502)).samples.length ∧
      (exampleState.add (Double.ofNat 3) (Double.ofNat 1502)).depths.length % UINT_RANGE
        ≠ (exampleState.add (Double.ofNat 3) (Double.ofNat 1502)).samples.length) ∧
    ((exampleState.add (Double.ofNat 3) (Double.ofNat 1502)).speeds.length + 1
        = (exampleState.add (Double.ofNat 3) (Double.ofNat 1502)).samples.length ∧
      (exampleState.add (Double.ofNat 3) (Double.ofNat 1502)).speeds.length % UINT_RANGE
        ≠ (exampleState.add (Double.ofNat 3) (Double.ofNat 1502)).samples.length) :=
  ⟨⟨by rfl, by rfl⟩,
    (C7_add_frame exampleState (Double.ofNat 3) (Double.ofNat 1502)).2.2.2.2.2.2.1 (by rfl),
    (C7_add_frame exampleState (Double.ofNat 3) (Double.ofNat 1502)).2.2.2.2.2.2.2 (by rfl)⟩

/-- C8: a freshly constructed profile has `latitude` and `longitude` both NaN (the unset
marker: `std::isnan` holds of both), an empty sample log, empty depth and speed columns, and
`getSize()` returns `0`, with any fuel, leaving the profile as constructed. -/
theorem C8_fresh_profile (ts : Nat) (dr : Double) (junk : Nat → Double) (fuel : Nat) :
    (construct ts dr).latitude = Double.nan ∧ (construct ts dr).longitude = Double.nan ∧
    Double.isNaN (construct ts dr).latitude = true ∧
    Double.isNaN (construct ts dr).longitude = true ∧
    (construct ts dr).samples = [] ∧ (construct ts dr).depths = [] ∧
    (construct ts dr).speeds = [] ∧
    getSize junk fuel (construct ts dr) = Except.ok (0, construct ts dr) :=
  ⟨rfl, rfl, rfl, rfl, rfl, rfl, rfl, rfl⟩

/-- C9: for every value `v` and every way `fmt` of inserting a double into the stream,
`latlongFormat(v)` is a blank followed by the three fields separated by colons, in this
order: degrees `trunc(v)`, minutes `trunc((v - degrees) * 60)`, seconds `(v - minutes) * 60`
(computed from `v` and the minutes, not from the remainder of the minutes). At `v = 45.5` the
fields are `45`, `30` and `(45.5 - 30) * 60 = 930`. -/
theorem C9_latlongFormat_fields (fmt : Double → String) (v : Double) :
    latlongFormat fmt v =
      " " ++ fmt (Double.trunc v) ++ ":" ++
        fmt (Double.trunc (Double.mul (Double.sub v (Double.trunc v)) (Double.ofNat 60))) ++ ":" ++
        fmt (Double.mul
          (Double.sub v
            (Double.trunc (Double.mul (Double.sub v (Double.trunc v)) (Double.ofNat 60))))
          (Double.ofNat 60)) ∧
    Double.trunc (Double.ofDecimal 455 1) = Double.ofNat 45 ∧
    Double.trunc (Double.mul (Double.sub (Double.ofDecimal 455 1) (Double.ofNat 45))
      (Double.ofNat 60)) = Double.ofNat 30 ∧
    Double.mul (Double.sub (Double.ofDecimal 455 1) (Double.ofNat 30)) (Double.ofNat 60)
      = Double.ofNat 930 ∧
    latlongFormat fmt (Double.ofDecimal 455 1) =
      " " ++ fmt (Double.ofNat 45) ++ ":" ++ fmt (Double.ofNat 30) ++ ":" ++
        fmt (Double.ofNat 930) := by
  have h1 : Double.trunc (Double.ofDecimal 455 1) = Double.ofNat 45 := by decide
  have h2 : Double.trunc (Double.mul (Double.sub (Double.ofDecimal 455 1) (Double.ofNat 45))
      (Double.ofNat 60)) = Double.ofNat 30 := by decide
  have h3 : Double.mul (Double.sub (Double.ofDecimal 455 1) (Double.ofNat 30))
      (Double.ofNat 60) = Double.ofNat 930 := by decide
  refine ⟨rfl, h1, h2, h3, ?_⟩
  unfold latlongFormat
  simp only [h1, h2, h3]

/-- C10: each setter changes exactly its own field. After `setLatitude(x)` `getLatitude()`
returns `x`, after `setLongitude(x)` `getLongitude()` returns `x`, after `setTimestamp(t)`
`getTimestamp()` returns `t`, for every argument; every other field is as before; and the
three getters leave the state as it is. -/
theorem C10_setters_and_getters (p : SoundVelocityProfile) (x : Double) (t : Nat) :
    ((p.setLatitude x).getLatitude.1 = x ∧
      (p.setLatitude x).timestamp = p.timestamp ∧ (p.setLatitude x).longitude = p.longitude ∧
      (p.setLatitude x).draft = p.draft ∧ (p.setLatitude x).samples = p.samples ∧
      (p.setLatitude x).depths = p.depths ∧ (p.setLatitude x).speeds = p.speeds) ∧
    ((p.setLongitude x).getLongitude.1 = x ∧
      (p.setLongitude x).timestamp = p.timestamp ∧ (p.setLongitude x).latitude = p.latitude ∧
      (p.setLongitude x).draft = p.draft ∧ (p.setLongitude x).samples = p.samples ∧
      (p.setLongitude x).depths = p.depths ∧ (p.setLongitude x).speeds = p.speeds) ∧
    ((p.setTimestamp t).getTimestamp.1 = t ∧
      (p.setTimestamp t).latitude = p.latitude ∧ (p.setTimestamp t).longitude = p.longitude ∧
      (p.setTimestamp t).draft = p.draft ∧ (p.setTimestamp t).samples = p.samples ∧
      (p.setTimestamp t).depths = p.depths ∧ (p.setTimestamp t).speeds = p.speeds) ∧
    (p.getLatitude = (p.latitude, p) ∧ p.getLongitude = (p.longitude, p) ∧
      p.getTimestamp = (p.timestamp, p)) :=
  ⟨⟨rfl, rfl, rfl, rfl, rfl, rfl, rfl⟩, ⟨rfl, rfl, rfl, rfl, rfl, rfl, rfl⟩,
    ⟨rfl, rfl, rfl, rfl, rfl, rfl, rfl⟩, ⟨rfl, rfl, rfl⟩⟩

end SoundVelocityProfile

/-! ## Faults, traces and the frame of the accessors -/

namespace SoundVelocityProfile

/-- On a column of the log's length the loop never leaves an index range: its only fault is
the exhaustion of the fuel. -/
theorem copyLoop_fault (sel : Double × Double → Double) (samples : List (Double × Double)) :
    ∀ (fuel i : Nat) (col : List Double) (f : Fault), col.length = samples.length →
      copyLoop sel samples fuel i col = Except.error f → f = Fault.outOfFuel := by
  intro fuel
  induction fuel with
  | zero =>
    intro i col f _ h
    simp only [copyLoop, Except.error.injEq] at h
    exact h.symm
  | succ fuel ih =>
    intro i col f hc h
    unfold copyLoop at h
    by_cases hlt : i < samples.length
    · have hic : i < col.length := by omega
      rw [if_pos hlt, List.getElem?_eq_getElem hlt] at h
      simp only [if_pos hic] at h
      exact ih _ _ f (by simp [hc]) h
    · rw [if_neg hlt] at h
      simp at h

/-- Forgetting the recorded counter values gives back `copyLoop`. -/
theorem copyLoopTrace_fst (sel : Double × Double → Double) (samples : List (Double × Double)) :
    ∀ (fuel i : Nat) (col : List Double) (visited : List Nat),
      (copyLoopTrace sel samples fuel i col visited).map Prod.fst
        = copyLoop sel samples fuel i col := by
  intro fuel
  induction fuel with
  | zero => intro i col visited; rfl
  | succ fuel ih =>
    intro i col visited
    unfold copyLoopTrace copyLoop
    by_cases hlt : i < samples.length
    · rw [if_pos hlt, if_pos hlt]
      cases hs : samples[i]? with
      | none => rfl
      | some smp =>
        simp only
        by_cases hic : i < col.length
        · rw [if_pos hic, if_pos hic]
          exact ih _ _ _
        · rw [if_neg hic, if_neg hic]
          rfl
    · rw [if_neg hlt, if_neg hlt]
      rfl

/-- Below `2 ^ 32` samples the counter values at which the body runs are `i`, `i + 1`, ...,
`samples.length - 1`, each once, in this order. -/
theorem copyLoopTrace_eq (sel : Double × Double → Double) (samples : List (Double × Double))
    (hn : samples.length < UINT_RANGE) :
    ∀ (fuel i : Nat) (col : List Double) (visited : List Nat),
      col.length = samples.length → i ≤ samples.length →
      copyLoopTrace sel samples fuel i col visited =
        (copyLoop sel samples fuel i col).map
          (fun c => (c, visited ++ List.range' i (samples.length - i))) := by
  intro fuel
  induction fuel with
  | zero => intro i col visited _ _; rfl
  | succ fuel ih =>
    intro i col visited hc hi
    unfold copyLoopTrace copyLoop
    by_cases hlt : i < samples.length
    · have hmod : (i + 1) % UINT_RANGE = i + 1 := Nat.mod_eq_of_lt (by omega)
      have hic : i < col.length := by omega
      rw [if_pos hlt, if_pos hlt, List.getElem?_eq_getElem hlt]
      simp only [if_pos hic, hmod]
      rw [ih (i + 1) _ _ (by simp [hc]) (by omega)]
      have hr : samples.length - i = (samples.length - (i + 1)) + 1 := by omega
      rw [hr, List.range'_succ]
      simp
    · have : i = samples.length := by omega
      subst this
      rw [if_neg hlt, if_neg hlt]
      simp [Except.map]

/-- Forgetting the recorded counter values gives back `getDepths`. -/
theorem getDepthsTrace_forget (junk : Nat → Double) (fuel : Nat) (p : SoundVelocityProfile) :
    (getDepthsTrace junk fuel p).map (fun r => (r.1, r.2.1)) = getDepths junk fuel p := by
  unfold getDepthsTrace getDepths
  by_cases hm : p.depths.length % UINT_RANGE ≠ p.samples.length
  · rw [if_pos hm, if_pos hm, ← copyLoopTrace_fst Prod.fst p.samples fuel 0 _ []]
    cases copyLoopTrace Prod.fst p.samples fuel 0 (resize junk p.depths p.samples.length) [] with
    | error f => rfl
    | ok r => rfl
  · rw [if_neg hm, if_neg hm]
    rfl

/-- Forgetting the recorded counter values gives back `getSpeeds`. -/
theorem getSpeedsTrace_forget (junk : Nat → Double) (fuel : Nat) (p : SoundVelocityProfile) :
    (getSpeedsTrace junk fuel p).map (fun r => (r.1, r.2.1)) = getSpeeds junk fuel p := by
  unfold getSpeedsTrace getSpeeds
  by_cases hm : p.speeds.length % UINT_RANGE ≠ p.samples.length
  · rw [if_pos hm, if_pos hm, ← copyLoopTrace_fst Prod.snd p.samples fuel 0 _ []]
    cases copyLoopTrace Prod.snd p.samples fuel 0 (resize junk p.speeds p.samples.length) [] with
    | error f => rfl
    | ok r => rfl
  · rw [if_neg hm, if_neg hm]
    rfl

/-- The only fault of `getDepths()` is the exhaustion of the fuel. -/
theorem getDepths_fault (junk : Nat → Double) (fuel : Nat) (p : SoundVelocityProfile)
    (f : Fault) (h : getDepths junk fuel p = Except.error f) : f = Fault.outOfFuel := by
  unfold getDepths at h
  by_cases hm : p.depths.length % UINT_RANGE ≠ p.samples.length
  · rw [if_pos hm] at h
    cases hl : copyLoop Prod.fst p.samples fuel 0 (resize junk p.depths p.samples.length) with
    | error g =>
      rw [hl] at h
      simp only [Except.error.injEq] at h
      subst h
      exact copyLoop_fault Prod.fst p.samples fuel 0 _ g (resize_length _ _ _) hl
    | ok col => rw [hl] at h; simp at h
  · rw [if_neg hm] at h
    simp at h

/-- The only fault of `getSpeeds()` is the exhaustion of the fuel. -/
theorem getSpeeds_fault (junk : Nat → Double) (fuel : Nat) (p : SoundVelocityProfile)
    (f : Fault) (h : getSpeeds junk fuel p = Except.error f) : f = Fault.outOfFuel := by
  unfold getSpeeds at h
  by_cases hm : p.speeds.length % UINT_RANGE ≠ p.samples.length
  · rw [if_pos hm] at h
    cases hl : copyLoop Prod.snd p.samples fuel 0 (resize junk p.speeds p.samples.length) with
    | error g =>
      rw [hl] at h
      simp only [Except.error.injEq] at h
      subst h
      exact copyLoop_fault Prod.snd p.samples fuel 0 _ g (resize_length _ _ _) hl
    | ok col => rw [hl] at h; simp at h
  · rw [if_neg hm] at h
    simp at h

/-- The only fault of `getSize()` is the exhaustion of the fuel. -/
theorem getSize_fault (junk : Nat → Double) (fuel : Nat) (p : SoundVelocityProfile)
    (f : Fault) (h : getSize junk fuel p = Except.error f) : f = Fault.outOfFuel := by
  unfold getSize at h
  cases hg : getDepths junk fuel p with
  | error g =>
    rw [hg] at h
    simp only [Except.error.injEq] at h
    subst h
    exact getDepths_fault junk fuel p g hg
  | ok r => rw [hg] at h; simp at h

/-- The outcome of `getSize()` is the outcome of `getDepths()` with the column replaced by its
length as an `unsigned int`. -/
theorem getSize_eq_map (junk : Nat → Double) (fuel : Nat) (p : SoundVelocityProfile) :
    getSize junk fuel p =
      (getDepths junk fuel p).map (fun r => (r.1.length % UINT_RANGE, r.2)) := by
  unfold getSize
  cases getDepths junk fuel p with
  | error f => rfl
  | ok r => rfl

/-- One call that returns keeps the log as an initial segment of the new log, keeps `draft`,
keeps `latitude` unless it is a `setLatitude`, and keeps `longitude` unless it is a
`setLongitude`. -/
theorem exec_frame (fuel : Nat) (p p' : SoundVelocityProfile) (c : Call)
    (h : exec fuel p c = Except.ok p') :
    p.samples <+: p'.samples ∧ p'.draft = p.draft ∧
      (c.isSetLatitude = false → p'.latitude = p.latitude) ∧
      (c.isSetLongitude = false → p'.longitude = p.longitude) := by
  cases c with
  | add d s =>
    simp only [exec, Except.ok.injEq] at h
    subst h
    exact ⟨List.prefix_append _ _, rfl, fun _ => rfl, fun _ => rfl⟩
  | getDepths junk =>
    simp only [exec] at h
    cases hg : getDepths junk fuel p with
    | error f => rw [hg] at h; simp [Except.map] at h
    | ok r =>
      obtain ⟨col, q⟩ := r
      rw [hg] at h
      simp only [Except.map, Except.ok.injEq] at h
      subst h
      obtain ⟨-, hq, -⟩ := getDepths_sound junk fuel p q col hg
      subst hq
      exact ⟨List.prefix_refl _, rfl, fun _ => rfl, fun _ => rfl⟩
  | getSpeeds junk =>
    simp only [exec] at h
    cases hg : getSpeeds junk fuel p with
    | error f => rw [hg] at h; simp [Except.map] at h
    | ok r =>
      obtain ⟨col, q⟩ := r
      rw [hg] at h
      simp only [Except.map, Except.ok.injEq] at h
      subst h
      obtain ⟨-, hq, -⟩ := getSpeeds_sound junk fuel p q col hg
      subst hq
      exact ⟨List.prefix_refl _, rfl, fun _ => rfl, fun _ => rfl⟩
  | getSize junk =>
    rw [exec_getSize] at h
    simp only [exec] at h
    cases hg : getDepths junk fuel p with
    | error f => rw [hg] at h; simp [Except.map] at h
    | ok r =>
      obtain ⟨col, q⟩ := r
      rw [hg] at h
      simp only [Except.map, Except.ok.injEq] at h
      subst h
      obtain ⟨-, hq, -⟩ := getDepths_sound junk fuel p q col hg
      subst hq
      exact ⟨List.prefix_refl _, rfl, fun _ => rfl, fun _ => rfl⟩
  | setLatitude l =>
    simp only [exec, Except.ok.injEq] at h
    subst h
    exact ⟨List.prefix_refl _, rfl, fun hc => by simp [Call.isSetLatitude] at hc, fun _ => rfl⟩
  | setLongitude l =>
    simp only [exec, Except.ok.injEq] at h
    subst h
    exact ⟨List.prefix_refl _, rfl, fun _ => rfl, fun hc => by simp [Call.isSetLongitude] at hc⟩
  | setTimestamp t =>
    simp only [exec, Except.ok.injEq] at h
    subst h
    exact ⟨List.prefix_refl _, rfl, fun _ => rfl, fun _ => rfl⟩

/-- A sequence of calls that returns keeps the log as an initial segment of the new log, keeps
`draft`, keeps `latitude` if it has no `setLatitude`, and keeps `longitude` if it has no
`setLongitude`. -/
theorem run_frame (fuel : Nat) (cs : List Call) :
    ∀ (p p' : SoundVelocityProfile), run fuel p cs = Except.ok p' →
      p.samples <+: p'.samples ∧ p'.draft = p.draft ∧
        ((∀ c ∈ cs, c.isSetLatitude = false) → p'.latitude = p.latitude) ∧
        ((∀ c ∈ cs, c.isSetLongitude = false) → p'.longitude = p.longitude) := by
  induction cs with
  | nil =>
    intro p p' h
    simp only [run, Except.ok.injEq] at h
    subst h
    exact ⟨List.prefix_refl _, rfl, fun _ => rfl, fun _ => rfl⟩
  | cons c cs ih =>
    intro p p' h
    unfold run at h
    cases he : exec fuel p c with
    | error f => rw [he] at h; simp at h
    | ok q =>
      rw [he] at h
      simp only at h
      obtain ⟨h1, h2, h3, h4⟩ := exec_frame fuel p q c he
      obtain ⟨k1, k2, k3, k4⟩ := ih q p' h
      refine ⟨h1.trans k1, k2.trans h2, ?_, ?_⟩
      · intro hall
        rw [k3 (fun c' hc' => hall c' (List.mem_cons_of_mem _ hc')),
          h3 (hall c (List.mem_cons_self _ _))]
      · intro hall
        rw [k4 (fun c' hc' => hall c' (List.mem_cons_of_mem _ hc')),
          h4 (hall c (List.mem_cons_self _ _))]

/-- The elements of an initial segment are the elements of the list at the same indices. -/
theorem getElem?_of_initial {α : Type} {l₁ l₂ : List α} (h : l₁ <+: l₂) (i : Nat)
    (hi : i < l₁.length) : l₂[i]? = l₁[i]? := by
  obtain ⟨t, rfl⟩ := h
  exact List.getElem?_append_left hi

/-- C11: the read operations never touch the authoritative data. In every profile state,
whenever `getDepths()`, `getSpeeds()` or `getSize()` returns, the sample log and `timestamp`,
`latitude`, `longitude`, `draft` are as before the call (and the three return below `2 ^ 32`
samples). Hence along any sequence of calls that returns the log before is an initial segment
of the log after: it never shrinks and every sample keeps its index and value; `draft` is as
before; `latitude` is as before unless `setLatitude` was called, `longitude` unless
`setLongitude` was called; from construction both stay NaN until their setter is called. -/
theorem C11_reads_keep_log_and_metadata (p : SoundVelocityProfile) (junk : Nat → Double)
    (fuel : Nat) :
    (∀ col p', getDepths junk fuel p = Except.ok (col, p') →
      p'.samples = p.samples ∧ p'.timestamp = p.timestamp ∧ p'.latitude = p.latitude ∧
      p'.longitude = p.longitude ∧ p'.draft = p.draft) ∧
    (∀ col p', getSpeeds junk fuel p = Except.ok (col, p') →
      p'.samples = p.samples ∧ p'.timestamp = p.timestamp ∧ p'.latitude = p.latitude ∧
      p'.longitude = p.longitude ∧ p'.draft = p.draft) ∧
    (∀ n p', getSize junk fuel p = Except.ok (n, p') →
      p'.samples = p.samples ∧ p'.timestamp = p.timestamp ∧ p'.latitude = p.latitude ∧
      p'.longitude = p.longitude ∧ p'.draft = p.draft) ∧
    (p.samples.length < UINT_RANGE → p.samples.length < fuel →
      (∃ r, getDepths junk fuel p = Except.ok r) ∧ (∃ r, getSpeeds junk fuel p = Except.ok r) ∧
      (∃ r, getSize junk fuel p = Except.ok r)) ∧
    (∀ cs p', run fuel p cs = Except.ok p' →
      p.samples <+: p'.samples ∧ p.samples.length ≤ p'.samples.length ∧
      (∀ i : Nat, i < p.samples.length → p'.samples[i]? = p.samples[i]?) ∧
      p'.draft = p.draft ∧
      ((∀ c ∈ cs, c.isSetLatitude = false) → p'.latitude = p.latitude) ∧
      ((∀ c ∈ cs, c.isSetLongitude = false) → p'.longitude = p.longitude)) ∧
    (∀ ts dr cs p', run fuel (construct ts dr) cs = Except.ok p' →
      ((∀ c ∈ cs, c.isSetLatitude = false) → p'.latitude = Double.nan) ∧
      ((∀ c ∈ cs, c.isSetLongitude = false) → p'.longitude = Double.nan)) := by
  refine ⟨?_, ?_, ?_, ?_, ?_, ?_⟩
  · intro col p' h
    obtain ⟨-, hq, -⟩ := getDepths_sound junk fuel p p' col h
    subst hq
    exact ⟨rfl, rfl, rfl, rfl, rfl⟩
  · intro col p' h
    obtain ⟨-, hq, -⟩ := getSpeeds_sound junk fuel p p' col h
    subst hq
    exact ⟨rfl, rfl, rfl, rfl, rfl⟩
  · intro n p' h
    rw [getSize_eq_map] at h
    cases hg : getDepths junk fuel p with
    | error f => rw [hg] at h; simp [Except.map] at h
    | ok r =>
      obtain ⟨col, q⟩ := r
      rw [hg] at h
      simp only [Except.map, Except.ok.injEq, Prod.mk.injEq] at h
      obtain ⟨-, hq, -⟩ := getDepths_sound junk fuel p q col hg
      rw [← h.2, hq]
      exact ⟨rfl, rfl, rfl, rfl, rfl⟩
  · intro hn hf
    refine ⟨?_, ?_, ?_⟩
    · rw [getDepths_eq junk fuel p hn hf]
      split
      · exact ⟨_, rfl⟩
      · exact ⟨_, rfl⟩
    · rw [getSpeeds_eq junk fuel p hn hf]
      split
      · exact ⟨_, rfl⟩
      · exact ⟨_, rfl⟩
    · rw [getSize_eq_map, getDepths_eq junk fuel p hn hf]
      split
      · exact ⟨_, rfl⟩
      · exact ⟨_, rfl⟩
  · intro cs p' h
    obtain ⟨h1, h2, h3, h4⟩ := run_frame fuel cs p p' h
    exact ⟨h1, h1.length_le, fun i hi => getElem?_of_initial h1 i hi, h2, h3, h4⟩
  · intro ts dr cs p' h
    obtain ⟨-, -, h3, h4⟩ := run_frame fuel cs _ p' h
    exact ⟨fun hall => h3 hall, fun hall => h4 hall⟩

/-- C11, concrete instance: `getDepths()` on `exampleState` after `add(3.0, 1502.0)` returns
`[1.0, 2.0, 3.0]` and leaves the three samples and the metadata as they were; after
`exampleCalls` on a fresh profile, which has a `setLatitude` and no `setLongitude`, the
longitude is still NaN. -/
theorem C11_reads_keep_log_and_metadata_witness :
    ({ exampleState.add (Double.ofNat 3) (Double.ofNat 1502) with
          depths := [Double.ofNat 1, Double.ofNat 2, Double.ofNat 3] }.samples
        = (exampleState.add (Double.ofNat 3) (Double.ofNat 1502)).samples ∧
      { exampleState.add (Double.ofNat 3) (Double.ofNat 1502) with
          depths := [Double.ofNat 1, Double.ofNat 2, Double.ofNat 3] }.timestamp
        = (exampleState.add (Double.ofNat 3) (Double.ofNat 1502)).timestamp ∧
      { exampleState.add (Double.ofNat 3) (Double.ofNat 1502) with
          depths := [Double.ofNat 1, Double.ofNat 2, Double.ofNat 3] }.latitude
        = (exampleState.add (Double.ofNat 3) (Double.ofNat 1502)).latitude ∧
      { exampleState.add (Double.ofNat 3) (Double.ofNat 1502) with
          depths := [Double.ofNat 1, Double.ofNat 2, Double.ofNat 3] }.longitude
        = (exampleState.add (Double.ofNat 3) (Double.ofNat 1502)).longitude ∧
      { exampleState.add (Double.ofNat 3) (Double.ofNat 1502) with
          depths := [Double.ofNat 1, Double.ofNat 2, Double.ofNat 3] }.draft
        = (exampleState.add (Double.ofNat 3) (Double.ofNat 1502)).draft) ∧
    (∃ p', run 4 (construct 0 Double.nan) exampleCalls = Except.ok p' ∧
      p'.longitude = Double.nan ∧ p'.latitude = Double.ofDecimal 455 1 ∧
      p'.samples.length = 3) :=
  ⟨(C11_reads_keep_log_and_metadata (exampleState.add (Double.ofNat 3) (Double.ofNat 1502))
      exampleJunk 4).1 [Double.ofNat 1, Double.ofNat 2, Double.ofNat 3] _ (by rfl),
    ⟨_, by rfl, by rfl, by rfl, by rfl⟩⟩

/-- The outcome of `getDepths()` is determined by the log and the depth column alone, and the
call writes the depth column alone. -/
theorem getDepths_local (junk : Nat → Double) (fuel : Nat) (p : SoundVelocityProfile)
    (sp : List Double) :
    getDepths junk fuel { p with speeds := sp } =
      (getDepths junk fuel p).map (fun r => (r.1, { r.2 with speeds := sp })) := by
  unfold getDepths
  by_cases hm : p.depths.length % UINT_RANGE ≠ p.samples.length
  · simp only [if_pos hm]
    cases copyLoop Prod.fst p.samples fuel 0 (resize junk p.depths p.samples.length) with
    | error f => rfl
    | ok col => rfl
  · simp only [if_neg hm]
    rfl

/-- The outcome of `getSpeeds()` is determined by the log and the speed column alone, and the
call writes the speed column alone. -/
theorem getSpeeds_local (junk : Nat → Double) (fuel : Nat) (p : SoundVelocityProfile)
    (dp : List Double) :
    getSpeeds junk fuel { p with depths := dp } =
      (getSpeeds junk fuel p).map (fun r => (r.1, { r.2 with depths := dp })) := by
  unfold getSpeeds
  by_cases hm : p.speeds.length % UINT_RANGE ≠ p.samples.length
  · simp only [if_pos hm]
    cases copyLoop Prod.snd p.samples fuel 0 (resize junk p.speeds p.samples.length) with
    | error f => rfl
    | ok col => rfl
  · simp only [if_neg hm]
    rfl

/-- C12: the two derived columns are cached independently. In every profile state, whenever
`getDepths()` returns the speed column is as before, and whenever `getSpeeds()` returns the
depth column is as before; and `getDepths()` then `getSpeeds()` has the same outcome as
`getSpeeds()` then `getDepths()`: the same two columns and the same final state when they
return (which both orders do below `2 ^ 32` samples), and otherwise neither order returns. -/
theorem C12_columns_cached_independently (p : SoundVelocityProfile) (jd js : Nat → Double)
    (fuel : Nat) :
    (∀ col p', getDepths jd fuel p = Except.ok (col, p') →
      p'.speeds = p.speeds ∧ p' = { p with depths := col }) ∧
    (∀ col p', getSpeeds js fuel p = Except.ok (col, p') →
      p'.depths = p.depths ∧ p' = { p with speeds := col }) ∧
    depthsThenSpeeds jd js fuel p = speedsThenDepths jd js fuel p ∧
    (p.samples.length < UINT_RANGE → p.samples.length < fuel →
      ∃ dcol scol, depthsThenSpeeds jd js fuel p
        = Except.ok (dcol, scol, { p with depths := dcol, speeds := scol })) := by
  have hcomm : depthsThenSpeeds jd js fuel p = speedsThenDepths jd js fuel p := by
    unfold depthsThenSpeeds speedsThenDepths
    cases hd : getDepths jd fuel p with
    | error f =>
      have hf := getDepths_fault jd fuel p f hd
      subst hf
      cases hs : getSpeeds js fuel p with
      | error g =>
        have hg := getSpeeds_fault js fuel p g hs
        subst hg
        rfl
      | ok r2 =>
        obtain ⟨scol, p2⟩ := r2
        obtain ⟨-, hp2, -⟩ := getSpeeds_sound js fuel p p2 scol hs
        subst hp2
        simp only
        rw [getDepths_local, hd]
        rfl
    | ok r1 =>
      obtain ⟨dcol, p1⟩ := r1
      obtain ⟨-, hp1, -⟩ := getDepths_sound jd fuel p p1 dcol hd
      subst hp1
      simp only
      rw [getSpeeds_local]
      cases hs : getSpeeds js fuel p with
      | error g => rfl
      | ok r2 =>
        obtain ⟨scol, p2⟩ := r2
        obtain ⟨-, hp2, -⟩ := getSpeeds_sound js fuel p p2 scol hs
        subst hp2
        simp only [Except.map]
        rw [getDepths_local, hd]
        rfl
  refine ⟨?_, ?_, hcomm, ?_⟩
  · intro col p' h
    obtain ⟨-, hq, -⟩ := getDepths_sound jd fuel p p' col h
    subst hq
    exact ⟨rfl, rfl⟩
  · intro col p' h
    obtain ⟨-, hq, -⟩ := getSpeeds_sound js fuel p p' col h
    subst hq
    exact ⟨rfl, rfl⟩
  · intro hn hf
    unfold depthsThenSpeeds
    rw [getDepths_eq jd fuel p hn hf]
    by_cases hm : p.depths.length % UINT_RANGE ≠ p.samples.length
    · rw [if_pos hm]
      simp only
      rw [getSpeeds_local, getSpeeds_eq js fuel p hn hf]
      by_cases hs : p.speeds.length % UINT_RANGE ≠ p.samples.length
      · rw [if_pos hs]
        exact ⟨_, _, rfl⟩
      · rw [if_neg hs]
        exact ⟨_, _, rfl⟩
    · rw [if_neg hm]
      simp only
      rw [getSpeeds_eq js fuel p hn hf]
      by_cases hs : p.speeds.length % UINT_RANGE ≠ p.samples.length
      · rw [if_pos hs]
        exact ⟨_, _, rfl⟩
      · rw [if_neg hs]
        exact ⟨p.depths, p.speeds, rfl⟩

/-- C12, concrete instance: on the fresh profile with the three example samples, the two
orders return the same two columns and the same final state, `getDepths()` alone leaves the
speed column empty, and `getSpeeds()` alone leaves the depth column empty. -/
theorem C12_columns_cached_independently_witness :
    ({ addAll (construct 0 Double.nan) exampleSamples with
          depths := depthColumn exampleSamples }.speeds
        = (addAll (construct 0 Double.nan) exampleSamples).speeds ∧
      { addAll (construct 0 Double.nan) exampleSamples with
          depths := depthColumn exampleSamples }
        = { addAll (construct 0 Double.nan) exampleSamples with
          depths := depthColumn exampleSamples }) ∧
    depthsThenSpeeds exampleJunk exampleJunk 4 (addAll (construct 0 Double.nan) exampleSamples)
      = Except.ok (depthColumn exampleSamples, speedColumn exampleSamples,
          { addAll (construct 0 Double.nan) exampleSamples with
            depths := depthColumn exampleSamples, speeds := speedColumn exampleSamples }) ∧
    speedsThenDepths exampleJunk exampleJunk 4 (addAll (construct 0 Double.nan) exampleSamples)
      = Except.ok (depthColumn exampleSamples, speedColumn exampleSamples,
          { addAll (construct 0 Double.nan) exampleSamples with
            depths := depthColumn exampleSamples, speeds := speedColumn exampleSamples }) ∧
    (getDepths exampleJunk 4 (addAll (construct 0 Double.nan) exampleSamples)).map
        (fun r => r.2.speeds) = Except.ok [] ∧
    (getSpeeds exampleJunk 4 (addAll (construct 0 Double.nan) exampleSamples)).map
        (fun r => r.2.depths) = Except.ok [] :=
  ⟨(C12_columns_cached_independently (addAll (construct 0 Double.nan) exampleSamples)
      exampleJunk exampleJunk 4).1 (depthColumn exampleSamples) _ (by rfl),
    by rfl, by rfl, by rfl, by rfl⟩

/-- One more than the range of `unsigned int` converts to `1`. -/
theorem succ_UINT_RANGE_mod : (UINT_RANGE + 1) % UINT_RANGE = 1 := by decide

/-- The lengths of the log and of the columns of `paddedProfile n`. -/
theorem paddedProfile_lengths (n : Nat) :
    (paddedProfile n).samples.length = 1 ∧ (paddedProfile n).depths.length = n ∧
      (paddedProfile n).speeds.length = n := by
  simp [paddedProfile]

/-- When `n` converts to `1` as an `unsigned int`, the length test of `getDepths()` passes in
`paddedProfile n`: the call returns the column of `n` coefficients as it is, with any fuel. -/
theorem paddedProfile_getDepths (n : Nat) (h : n % UINT_RANGE = 1) (junk : Nat → Double)
    (fuel : Nat) :
    getDepths junk fuel (paddedProfile n)
      = Except.ok ((paddedProfile n).depths, paddedProfile n) := by
  unfold getDepths
  rw [if_neg]
  simp [paddedProfile, h]

/-- When `n` converts to `1` as an `unsigned int`, `getSize()` returns `1` in
`paddedProfile n`. -/
theorem paddedProfile_getSize (n : Nat) (h : n % UINT_RANGE = 1) (junk : Nat → Double)
    (fuel : Nat) :
    getSize junk fuel (paddedProfile n) = Except.ok (1, paddedProfile n) := by
  rw [getSize_eq_map, paddedProfile_getDepths n h]
  simp [Except.map, paddedProfile, h]

/-- C13 (amended): `getSize()` is `getDepths()` followed by reading the length as an
`unsigned int`. In every profile state the two calls have the same outcome as far as the state
goes (the same state afterwards, or neither returns; both return below `2 ^ 32` samples). When
`getDepths()` returns a column, `getSize()` returns the length of that column modulo `2 ^ 32`,
which is the length of the log; the state afterwards holds that column as the depth column
and the speed column is as before. When the depth column had fewer than `2 ^ 32` coefficients
before the call, the column returned has the length of the log and `getSize()` returns exactly
its length. -/
theorem C13_getSize_delegates (p : SoundVelocityProfile) (junk : Nat → Double) (fuel : Nat) :
    (getSize junk fuel p).map Prod.snd = (getDepths junk fuel p).map Prod.snd ∧
    (∀ col p', getDepths junk fuel p = Except.ok (col, p') →
      getSize junk fuel p = Except.ok (col.length % UINT_RANGE, p') ∧
      p'.depths = col ∧ p'.speeds = p.speeds ∧ col.length % UINT_RANGE = p.samples.length ∧
      (p.depths.length < UINT_RANGE →
        col.length = p.samples.length ∧ getSize junk fuel p = Except.ok (col.length, p'))) ∧
    (p.samples.length < UINT_RANGE → p.samples.length < fuel →
      ∃ col p', getDepths junk fuel p = Except.ok (col, p')) := by
  refine ⟨?_, ?_, ?_⟩
  · rw [getSize_eq_map]
    cases getDepths junk fuel p with
    | error f => rfl
    | ok r => rfl
  · intro col p' h
    obtain ⟨hn, hq, hcol⟩ := getDepths_sound junk fuel p p' col h
    have hsize : getSize junk fuel p = Except.ok (col.length % UINT_RANGE, p') := by
      rw [getSize_eq_map, h]; rfl
    have hmod : col.length % UINT_RANGE = p.samples.length := by
      rw [hcol]
      split
      · simp [depthColumn, Nat.mod_eq_of_lt hn]
      · rename_i hm
        omega
    refine ⟨hsize, by rw [hq], by rw [hq], hmod, ?_⟩
    intro hd
    have hlen : col.length = p.samples.length := by
      rw [hcol] at hmod ⊢
      split
      · simp [depthColumn]
      · rename_i hm
        rw [if_neg hm] at hmod
        rw [Nat.mod_eq_of_lt hd] at hmod
        exact hmod
    refine ⟨hlen, ?_⟩
    rw [hsize, hmod, hlen]
  · intro hn hf
    rw [getDepths_eq junk fuel p hn hf]
    split
    · exact ⟨_, _, rfl⟩
    · exact ⟨_, _, rfl⟩

/-- C13, concrete instance: on the fresh profile with the three example samples `getDepths()`
returns the column `[1.0, 2.0, 3.5]`, `getSize()` returns `3` and leaves the same state, in
which the speed column is still empty. -/
theorem C13_getSize_delegates_witness :
    getSize exampleJunk 4 (addAll (construct 0 Double.nan) exampleSamples)
      = Except.ok ((depthColumn exampleSamples).length % UINT_RANGE,
          { addAll (construct 0 Double.nan) exampleSamples with
            depths := depthColumn exampleSamples }) ∧
    { addAll (construct 0 Double.nan) exampleSamples with
        depths := depthColumn exampleSamples }.depths = depthColumn exampleSamples ∧
    { addAll (construct 0 Double.nan) exampleSamples with
        depths := depthColumn exampleSamples }.speeds
      = (addAll (construct 0 Double.nan) exampleSamples).speeds ∧
    (depthColumn exampleSamples).length % UINT_RANGE
      = (addAll (construct 0 Double.nan) exampleSamples).samples.length ∧
    ((addAll (construct 0 Double.nan) exampleSamples).depths.length < UINT_RANGE →
      (depthColumn exampleSamples).length
        = (addAll (construct 0 Double.nan) exampleSamples).samples.length ∧
      getSize exampleJunk 4 (addAll (construct 0 Double.nan) exampleSamples)
        = Except.ok ((depthColumn exampleSamples).length,
            { addAll (construct 0 Double.nan) exampleSamples with
              depths := depthColumn exampleSamples })) :=
  (C13_getSize_delegates (addAll (construct 0 Double.nan) exampleSamples) exampleJunk 4).2.1
    (depthColumn exampleSamples) _ (by rfl)

/-- C13 as stated fails in the state with one sample and a depth column of `2 ^ 32 + 1`
coefficients: the length converts to `1`, so `getDepths()` returns the column as it is, with
its `2 ^ 32 + 1` coefficients (it is not brought to the length of the log), and `getSize()`
returns `1`, which is not the length of the column `getDepths()` returns. -/
theorem C13_counterexample :
    getDepths exampleJunk 0 (paddedProfile (UINT_RANGE + 1))
      = Except.ok ((paddedProfile (UINT_RANGE + 1)).depths, paddedProfile (UINT_RANGE + 1)) ∧
    (paddedProfile (UINT_RANGE + 1)).depths.length = UINT_RANGE + 1 ∧
    (paddedProfile (UINT_RANGE + 1)).samples.length = 1 ∧
    getSize exampleJunk 0 (paddedProfile (UINT_RANGE + 1))
      = Except.ok (1, paddedProfile (UINT_RANGE + 1)) ∧
    1 ≠ UINT_RANGE + 1 :=
  ⟨paddedProfile_getDepths (UINT_RANGE + 1) succ_UINT_RANGE_mod exampleJunk 0,
    (paddedProfile_lengths (UINT_RANGE + 1)).2.1,
    (paddedProfile_lengths (UINT_RANGE + 1)).1,
    paddedProfile_getSize (UINT_RANGE + 1) succ_UINT_RANGE_mod exampleJunk 0,
    Nat.ne_of_lt (Nat.lt_add_of_pos_left UINT_RANGE_pos)⟩

/-- C14 (amended): in every profile state no index leaves its container: after `resize` the
column has the length of the log, so neither the loop nor `getDepths()`, `getSpeeds()`,
`getSize()` ever ends in the out-of-bounds fault, with any fuel. In every profile state whose
log has fewer than `2 ^ 32` samples the three accessors succeed (once the fuel exceeds the
length of the log); `add` and the setters succeed in every state and for every argument (the
getters are total functions of the state). -/
theorem C14_total_below_bound (p : SoundVelocityProfile) (junk : Nat → Double) (fuel : Nat) :
    ((resize junk p.depths p.samples.length).length = p.samples.length ∧
      (resize junk p.speeds p.samples.length).length = p.samples.length) ∧
    (∀ (sel : Double × Double → Double) (i : Nat) (col : List Double),
      col.length = p.samples.length →
      copyLoop sel p.samples fuel i col ≠ Except.error Fault.outOfBounds) ∧
    (getDepths junk fuel p ≠ Except.error Fault.outOfBounds ∧
      getSpeeds junk fuel p ≠ Except.error Fault.outOfBounds ∧
      getSize junk fuel p ≠ Except.error Fault.outOfBounds) ∧
    (p.samples.length < UINT_RANGE → p.samples.length < fuel →
      (∃ r, getDepths junk fuel p = Except.ok r) ∧ (∃ r, getSpeeds junk fuel p = Except.ok r) ∧
      (∃ r, getSize junk fuel p = Except.ok r)) ∧
    ((∀ d s, exec fuel p (Call.add d s) = Except.ok (p.add d s)) ∧
      (∀ l, exec fuel p (Call.setLatitude l) = Except.ok (p.setLatitude l)) ∧
      (∀ l, exec fuel p (Call.setLongitude l) = Except.ok (p.setLongitude l)) ∧
      (∀ t, exec fuel p (Call.setTimestamp t) = Except.ok (p.setTimestamp t))) := by
  refine ⟨⟨resize_length _ _ _, resize_length _ _ _⟩, ?_, ⟨?_, ?_, ?_⟩, ?_,
    ⟨fun _ _ => rfl, fun _ => rfl, fun _ => rfl, fun _ => rfl⟩⟩
  · intro sel i col hc h
    have := copyLoop_fault sel p.samples fuel i col _ hc h
    simp at this
  · intro h
    have := getDepths_fault junk fuel p _ h
    simp at this
  · intro h
    have := getSpeeds_fault junk fuel p _ h
    simp at this
  · intro h
    have := getSize_fault junk fuel p _ h
    simp at this
  · intro hn hf
    refine ⟨?_, ?_, ?_⟩
    · rw [getDepths_eq junk fuel p hn hf]
      split
      · exact ⟨_, rfl⟩
      · exact ⟨_, rfl⟩
    · rw [getSpeeds_eq junk fuel p hn hf]
      split
      · exact ⟨_, rfl⟩
      · exact ⟨_, rfl⟩
    · rw [getSize_eq_map, getDepths_eq junk fuel p hn hf]
      split
      · exact ⟨_, rfl⟩
      · exact ⟨_, rfl⟩

/-- C14, concrete instance: in `exampleState` after `add(3.0, 1502.0)` (three samples, both
columns stale) `getDepths()`, `getSpeeds()` and `getSize()` succeed with fuel 4. -/
theorem C14_total_below_bound_witness :
    ((exampleState.add (Double.ofNat 3) (Double.ofNat 1502)).samples.length < UINT_RANGE ∧
      (exampleState.add (Double.ofNat 3) (Double.ofNat 1502)).samples.length < 4) ∧
    ((∃ r, getDepths exampleJunk 4 (exampleState.add (Double.ofNat 3) (Double.ofNat 1502))
        = Except.ok r) ∧
      (∃ r, getSpeeds exampleJunk 4 (exampleState.add (Double.ofNat 3) (Double.ofNat 1502))
        = Except.ok r) ∧
      (∃ r, getSize exampleJunk 4 (exampleState.add (Double.ofNat 3) (Double.ofNat 1502))
        = Except.ok r)) :=
  ⟨⟨by decide, by decide⟩,
    (C14_total_below_bound (exampleState.add (Double.ofNat 3) (Double.ofNat 1502))
      exampleJunk 4).2.2.2.1 (by decide) (by decide)⟩

/-- C14 as stated fails in the state reached by `2 ^ 32` calls of `add` on a fresh profile:
neither `getSize()` nor `getSpeeds()` succeeds there, whatever the fuel. -/
theorem C14_counterexample :
    (¬ ∃ fuel r, getSize exampleJunk fuel
        (addAll (construct 0 Double.nan) (List.replicate UINT_RANGE surfaceSample))
        = Except.ok r) ∧
    (¬ ∃ fuel r, getSpeeds exampleJunk fuel
        (addAll (construct 0 Double.nan) (List.replicate UINT_RANGE surfaceSample))
        = Except.ok r) := by
  have hlen : UINT_RANGE ≤
      (addAll (construct 0 Double.nan) (List.replicate UINT_RANGE surfaceSample)).samples.length := by
    rw [addAll_eq]
    simp [construct]
  constructor
  · rintro ⟨fuel, r, h⟩
    rw [getSize_eq_map, getDepths_diverges _ _ _ hlen] at h
    simp [Except.map] at h
  · rintro ⟨fuel, r, h⟩
    rw [getSpeeds_diverges _ _ _ hlen] at h
    simp at h

/-- What `getDepthsTrace` gives below `2 ^ 32` samples: on a length mismatch the body runs at
the counter values `0`, ..., `samples.length - 1`; otherwise it does not run. -/
theorem getDepthsTrace_eq (junk : Nat → Double) (fuel : Nat) (p : SoundVelocityProfile)
    (hn : p.samples.length < UINT_RANGE) (hf : p.samples.length < fuel) :
    getDepthsTrace junk fuel p =
      if p.depths.length % UINT_RANGE ≠ p.samples.length then
        Except.ok (depthColumn p.samples, { p with depths := depthColumn p.samples },
          List.range p.samples.length)
      else Except.ok (p.depths, p, []) := by
  unfold getDepthsTrace
  split
  · rw [copyLoopTrace_eq Prod.fst p.samples hn fuel 0 _ [] (resize_length _ _ _) (Nat.zero_le _),
      copyLoop_zero Prod.fst p.samples hn fuel hf _ (resize_length _ _ _)]
    simp [Except.map, depthColumn, List.range_eq_range']
  · rfl

/-- What `getSpeedsTrace` gives below `2 ^ 32` samples: on a length mismatch the body runs at
the counter values `0`, ..., `samples.length - 1`; otherwise it does not run. -/
theorem getSpeedsTrace_eq (junk : Nat → Double) (fuel : Nat) (p : SoundVelocityProfile)
    (hn : p.samples.length < UINT_RANGE) (hf : p.samples.length < fuel) :
    getSpeedsTrace junk fuel p =
      if p.speeds.length % UINT_RANGE ≠ p.samples.length then
        Except.ok (speedColumn p.samples, { p with speeds := speedColumn p.samples },
          List.range p.samples.length)
      else Except.ok (p.speeds, p, []) := by
  unfold getSpeedsTrace
  split
  · rw [copyLoopTrace_eq Prod.snd p.samples hn fuel 0 _ [] (resize_length _ _ _) (Nat.zero_le _),
      copyLoop_zero Prod.snd p.samples hn fuel hf _ (resize_length _ _ _)]
    simp [Except.map, speedColumn, List.range_eq_range']
  · rfl

/-- C15 (amended): in every profile state whose sample log has fewer than `2 ^ 32` entries,
`getDepths()` and `getSpeeds()` terminate (once the fuel exceeds the length of the log), and so
does `getSize()`; when the column also has fewer than `2 ^ 32` coefficients the body of the
copy loop runs exactly `samples.length` times if the length of the column differs from the
length of the log, and not at all (the call returns with no fuel) if the lengths match. `add`
and the setters contain no loop and return with no fuel, in every state; the getters are
total functions of the state. -/
theorem C15_loop_iterations (p : SoundVelocityProfile) (junk : Nat → Double) (fuel : Nat)
    (hn : p.samples.length < UINT_RANGE) (hf : p.samples.length < fuel) :
    ((∃ r, getDepthsTrace junk fuel p = Except.ok r) ∧
      (∃ r, getSpeedsTrace junk fuel p = Except.ok r) ∧
      (∃ r, getSize junk fuel p = Except.ok r)) ∧
    ((∀ d s, exec 0 p (Call.add d s) = Except.ok (p.add d s)) ∧
      (∀ l, exec 0 p (Call.setLatitude l) = Except.ok (p.setLatitude l)) ∧
      (∀ l, exec 0 p (Call.setLongitude l) = Except.ok (p.setLongitude l)) ∧
      (∀ t, exec 0 p (Call.setTimestamp t) = Except.ok (p.setTimestamp t))) ∧
    (p.depths.length < UINT_RANGE →
      (p.depths.length ≠ p.samples.length →
        ∃ col p' visited, getDepthsTrace junk fuel p = Except.ok (col, p', visited) ∧
          visited.length = p.samples.length) ∧
      (p.depths.length = p.samples.length →
        ∀ fuel', getDepthsTrace junk fuel' p = Except.ok (p.depths, p, []))) ∧
    (p.speeds.length < UINT_RANGE →
      (p.speeds.length ≠ p.samples.length →
        ∃ col p' visited, getSpeedsTrace junk fuel p = Except.ok (col, p', visited) ∧
          visited.length = p.samples.length) ∧
      (p.speeds.length = p.samples.length →
        ∀ fuel', getSpeedsTrace junk fuel' p = Except.ok (p.speeds, p, []))) := by
  refine ⟨⟨?_, ?_, ?_⟩, ⟨fun _ _ => rfl, fun _ => rfl, fun _ => rfl, fun _ => rfl⟩, ?_, ?_⟩
  · rw [getDepthsTrace_eq junk fuel p hn hf]
    split
    · exact ⟨_, rfl⟩
    · exact ⟨_, rfl⟩
  · rw [getSpeedsTrace_eq junk fuel p hn hf]
    split
    · exact ⟨_, rfl⟩
    · exact ⟨_, rfl⟩
  · rw [getSize_eq_map, getDepths_eq junk fuel p hn hf]
    split
    · exact ⟨_, rfl⟩
    · exact ⟨_, rfl⟩
  · intro hd
    have hmod := Nat.mod_eq_of_lt hd
    constructor
    · intro hne
      rw [getDepthsTrace_eq junk fuel p hn hf, if_pos (by omega)]
      exact ⟨_, _, _, rfl, List.length_range _⟩
    · intro heq fuel'
      unfold getDepthsTrace
      rw [if_neg (by omega)]
  · intro hd
    have hmod := Nat.mod_eq_of_lt hd
    constructor
    · intro hne
      rw [getSpeedsTrace_eq junk fuel p hn hf, if_pos (by omega)]
      exact ⟨_, _, _, rfl, List.length_range _⟩
    · intro heq fuel'
      unfold getSpeedsTrace
      rw [if_neg (by omega)]

/-- From `2 ^ 32` samples on `getDepthsTrace` does not return, whatever the fuel. -/
theorem getDepthsTrace_diverges (junk : Nat → Double) (p : SoundVelocityProfile)
    (hn : UINT_RANGE ≤ p.samples.length) :
    ¬ ∃ fuel r, getDepthsTrace junk fuel p = Except.ok r := by
  rintro ⟨fuel, r, h⟩
  have hf := getDepthsTrace_forget junk fuel p
  rw [h, getDepths_diverges junk fuel p hn] at hf
  simp [Except.map] at hf

/-- When `n` converts to `1` as an `unsigned int`, the body of the loop of `getDepths()` does
not run in `paddedProfile n`. -/
theorem paddedProfile_getDepthsTrace (n : Nat) (h : n % UINT_RANGE = 1) (junk : Nat → Double)
    (fuel : Nat) :
    getDepthsTrace junk fuel (paddedProfile n)
      = Except.ok ((paddedProfile n).depths, paddedProfile n, []) := by
  unfold getDepthsTrace
  rw [if_neg]
  simp [paddedProfile, h]

/-- The log of the state after `n` equal `add` calls on a fresh profile has `n` samples. -/
theorem addAll_replicate_length (ts : Nat) (dr : Double) (n : Nat) (x : Double × Double) :
    (addAll (construct ts dr) (List.replicate n x)).samples.length = n := by
  rw [addAll_eq]
  simp [construct]

/-- C15, concrete instance: in `exampleState` after `add(3.0, 1502.0)` the depth column has 2
coefficients and the log 3 samples, and the body of the loop of `getDepths()` runs 3 times, at
the counter values 0, 1, 2; in `exampleState` itself the lengths match and `getDepths()`
returns with no fuel, the body not run. -/
theorem C15_loop_iterations_witness :
    ((exampleState.add (Double.ofNat 3) (Double.ofNat 1502)).samples.length < UINT_RANGE ∧
      (exampleState.add (Double.ofNat 3) (Double.ofNat 1502)).samples.length < 4 ∧
      (exampleState.add (Double.ofNat 3) (Double.ofNat 1502)).depths.length < UINT_RANGE ∧
      (exampleState.add (Double.ofNat 3) (Double.ofNat 1502)).depths.length
        ≠ (exampleState.add (Double.ofNat 3) (Double.ofNat 1502)).samples.length) ∧
    (∃ col p' visited,
      getDepthsTrace exampleJunk 4 (exampleState.add (Double.ofNat 3) (Double.ofNat 1502))
        = Except.ok (col, p', visited) ∧
      visited.length = (exampleState.add (Double.ofNat 3) (Double.ofNat 1502)).samples.length) ∧
    (getDepthsTrace exampleJunk 4 (exampleState.add (Double.ofNat 3) (Double.ofNat 1502))).map
        (fun r => r.2.2) = Except.ok [0, 1, 2] ∧
    (getDepthsTrace exampleJunk 0 exampleState).map (fun r => r.2.2) = Except.ok [] :=
  ⟨⟨by decide, by decide, by decide, by decide⟩,
    ((C15_loop_iterations (exampleState.add (Double.ofNat 3) (Double.ofNat 1502)) exampleJunk 4
      (by decide) (by decide)).2.2.1 (by decide)).1 (by decide),
    by rfl, by rfl⟩

/-- C15 as stated fails twice. In the state reached by `2 ^ 32` calls of `add` on a fresh
profile `getDepths()` does not terminate, whatever the fuel. In the state with one sample and
a depth column of `2 ^ 32 + 1` coefficients the length of the column differs from the length
of the log, and the body of the loop runs zero times, not once. -/
theorem C15_counterexample :
    (¬ ∃ fuel r, getDepthsTrace exampleJunk fuel
        (addAll (construct 0 Double.nan) (List.replicate UINT_RANGE surfaceSample))
        = Except.ok r) ∧
    ((paddedProfile (UINT_RANGE + 1)).samples.length = 1 ∧
      (paddedProfile (UINT_RANGE + 1)).depths.length = UINT_RANGE + 1 ∧
      1 ≠ UINT_RANGE + 1 ∧
      getDepthsTrace exampleJunk 0 (paddedProfile (UINT_RANGE + 1))
        = Except.ok ((paddedProfile (UINT_RANGE + 1)).depths,
            paddedProfile (UINT_RANGE + 1), [])) :=
  ⟨getDepthsTrace_diverges exampleJunk _
      (Nat.le_of_eq (addAll_replicate_length 0 Double.nan UINT_RANGE surfaceSample).symm),
    (paddedProfile_lengths (UINT_RANGE + 1)).1,
    (paddedProfile_lengths (UINT_RANGE + 1)).2.1,
    Nat.ne_of_lt (Nat.lt_add_of_pos_left UINT_RANGE_pos),
    paddedProfile_getDepthsTrace (UINT_RANGE + 1) succ_UINT_RANGE_mod exampleJunk 0⟩

/-- A call other than `add` that returns leaves the log as it is, and leaves a column as it
is when the column has the length of the log. -/
theorem exec_noAdd_keeps (fuel : Nat) (q q' : SoundVelocityProfile) (c : Call)
    (h : exec fuel q c = Except.ok q') (hc : countAdds [c] = 0) :
    q'.samples = q.samples ∧ (q.depths.length = q.samples.length → q'.depths = q.depths) ∧
      (q.speeds.length = q.samples.length → q'.speeds = q.speeds) := by
  cases c with
  | add d s => simp [countAdds, Call.isAdd] at hc
  | getDepths junk =>
    simp only [exec] at h
    cases hg : getDepths junk fuel q with
    | error f => rw [hg] at h; simp [Except.map] at h
    | ok r =>
      obtain ⟨col, q1⟩ := r
      rw [hg] at h
      simp only [Except.map, Except.ok.injEq] at h
      subst h
      obtain ⟨hn, hq, hcol⟩ := getDepths_sound junk fuel q q1 col hg
      subst hq
      refine ⟨rfl, ?_, fun _ => rfl⟩
      intro hlen
      show col = q.depths
      rw [hcol, if_neg]
      rw [hlen, Nat.mod_eq_of_lt hn]
      simp
  | getSpeeds junk =>
    simp only [exec] at h
    cases hg : getSpeeds junk fuel q with
    | error f => rw [hg] at h; simp [Except.map] at h
    | ok r =>
      obtain ⟨col, q1⟩ := r
      rw [hg] at h
      simp only [Except.map, Except.ok.injEq] at h
      subst h
      obtain ⟨hn, hq, hcol⟩ := getSpeeds_sound junk fuel q q1 col hg
      subst hq
      refine ⟨rfl, fun _ => rfl, ?_⟩
      intro hlen
      show col = q.speeds
      rw [hcol, if_neg]
      rw [hlen, Nat.mod_eq_of_lt hn]
      simp
  | getSize junk =>
    rw [exec_getSize] at h
    simp only [exec] at h
    cases hg : getDepths junk fuel q with
    | error f => rw [hg] at h; simp [Except.map] at h
    | ok r =>
      obtain ⟨col, q1⟩ := r
      rw [hg] at h
      simp only [Except.map, Except.ok.injEq] at h
      subst h
      obtain ⟨hn, hq, hcol⟩ := getDepths_sound junk fuel q q1 col hg
      subst hq
      refine ⟨rfl, ?_, fun _ => rfl⟩
      intro hlen
      show col = q.depths
      rw [hcol, if_neg]
      rw [hlen, Nat.mod_eq_of_lt hn]
      simp
  | setLatitude l =>
    simp only [exec, Except.ok.injEq] at h
    subst h
    exact ⟨rfl, fun _ => rfl, fun _ => rfl⟩
  | setLongitude l =>
    simp only [exec, Except.ok.injEq] at h
    subst h
    exact ⟨rfl, fun _ => rfl, fun _ => rfl⟩
  | setTimestamp t =>
    simp only [exec, Except.ok.injEq] at h
    subst h
    exact ⟨rfl, fun _ => rfl, fun _ => rfl⟩

/-- Calls other than `add` that return leave the log as it is, and leave a column as it is
when the column has the length of the log. -/
theorem run_noAdd_keeps (fuel : Nat) (cs : List Call) :
    ∀ (q p : SoundVelocityProfile), countAdds cs = 0 → run fuel q cs = Except.ok p →
      p.samples = q.samples ∧ (q.depths.length = q.samples.length → p.depths = q.depths) ∧
        (q.speeds.length = q.samples.length → p.speeds = q.speeds) := by
  induction cs with
  | nil =>
    intro q p _ h
    simp only [run, Except.ok.injEq] at h
    subst h
    exact ⟨rfl, fun _ => rfl, fun _ => rfl⟩
  | cons c cs ih =>
    intro q p hc h
    rw [countAdds_cons c cs] at hc
    unfold run at h
    cases he : exec fuel q c with
    | error f => rw [he] at h; simp at h
    | ok q1 =>
      rw [he] at h
      simp only at h
      obtain ⟨hs, hd, hsp⟩ := exec_noAdd_keeps fuel q q1 c he (by omega)
      obtain ⟨h1, h2, h3⟩ := ih q1 p (by omega) h
      refine ⟨h1.trans hs, ?_, ?_⟩
      · intro hlen
        have hd' := hd hlen
        rw [h2 (by rw [hd', hs]; exact hlen), hd']
      · intro hlen
        have hsp' := hsp hlen
        rw [h3 (by rw [hsp', hs]; exact hlen), hsp']

/-- C16 (amended): the cache is keyed on the length of the log, not on its content. In every
state whose log has fewer than `2 ^ 32` samples and whose depth column has the length of the
log, whatever the column holds (for instance after a caller wrote `v` at index `i` through the
reference `getDepths()` returned), `getDepths()` returns the column as it is and changes
nothing, with no fuel (no recomputation); calls other than `add` leave the column as it is;
and after `add(d, s)` (the log staying below `2 ^ 32` samples) the next `getDepths()` returns
the depth column of the log, every written value replaced. The same holds for `getSpeeds()`. -/
theorem C16_cache_keyed_on_length (p : SoundVelocityProfile)
    (hn : p.samples.length < UINT_RANGE) :
    (p.depths.length = p.samples.length →
      (∀ junk fuel, getDepths junk fuel p = Except.ok (p.depths, p)) ∧
      (∀ (i : Nat) (v : Double) junk fuel, i < p.depths.length →
        getDepths junk fuel (writeDepth p i v)
          = Except.ok ((writeDepth p i v).depths, writeDepth p i v) ∧
        (writeDepth p i v).depths[i]? = some v) ∧
      (∀ fuel cs p', countAdds cs = 0 → run fuel p cs = Except.ok p' → p'.depths = p.depths) ∧
      (∀ d s junk fuel, p.samples.length + 1 < UINT_RANGE → p.samples.length + 1 < fuel →
        getDepths junk fuel (p.add d s) = Except.ok (depthColumn (p.samples ++ [(d, s)]),
          { p.add d s with depths := depthColumn (p.samples ++ [(d, s)]) }))) ∧
    (p.speeds.length = p.samples.length →
      (∀ junk fuel, getSpeeds junk fuel p = Except.ok (p.speeds, p)) ∧
      (∀ (i : Nat) (v : Double) junk fuel, i < p.speeds.length →
        getSpeeds junk fuel (writeSpeed p i v)
          = Except.ok ((writeSpeed p i v).speeds, writeSpeed p i v) ∧
        (writeSpeed p i v).speeds[i]? = some v) ∧
      (∀ fuel cs p', countAdds cs = 0 → run fuel p cs = Except.ok p' → p'.speeds = p.speeds) ∧
      (∀ d s junk fuel, p.samples.length + 1 < UINT_RANGE → p.samples.length + 1 < fuel →
        getSpeeds junk fuel (p.add d s) = Except.ok (speedColumn (p.samples ++ [(d, s)]),
          { p.add d s with speeds := speedColumn (p.samples ++ [(d, s)]) }))) := by
  constructor
  · intro hlen
    have hmod : p.depths.length % UINT_RANGE = p.samples.length := by
      rw [hlen, Nat.mod_eq_of_lt hn]
    refine ⟨?_, ?_, ?_, ?_⟩
    · intro junk fuel
      unfold getDepths
      rw [if_neg (by omega)]
    · intro i v junk fuel hi
      constructor
      · unfold getDepths
        rw [if_neg]
        simp [writeDepth, hmod]
      · simp [writeDepth, hi]
    · intro fuel cs p' hc hrun
      exact (run_noAdd_keeps fuel cs p p' hc hrun).2.1 hlen
    · intro d s junk fuel hn' hf'
      have hs : (p.add d s).samples.length = p.samples.length + 1 := by simp [add]
      rw [getDepths_eq junk fuel (p.add d s) (by omega) (by omega), if_pos]
      · rfl
      · show p.depths.length % UINT_RANGE ≠ (p.add d s).samples.length
        omega
  · intro hlen
    have hmod : p.speeds.length % UINT_RANGE = p.samples.length := by
      rw [hlen, Nat.mod_eq_of_lt hn]
    refine ⟨?_, ?_, ?_, ?_⟩
    · intro junk fuel
      unfold getSpeeds
      rw [if_neg (by omega)]
    · intro i v junk fuel hi
      constructor
      · unfold getSpeeds
        rw [if_neg]
        simp [writeSpeed, hmod]
      · simp [writeSpeed, hi]
    · intro fuel cs p' hc hrun
      exact (run_noAdd_keeps fuel cs p p' hc hrun).2.2 hlen
    · intro d s junk fuel hn' hf'
      have hs : (p.add d s).samples.length = p.samples.length + 1 := by simp [add]
      rw [getSpeeds_eq junk fuel (p.add d s) (by omega) (by omega), if_pos]
      · rfl
      · show p.speeds.length % UINT_RANGE ≠ (p.add d s).samples.length
        omega

/-- C16, concrete instance: in `writtenState` the depth column is `[9.0, 2.0]` while the log
has the depths `1.0, 2.0`; `getDepths()` returns `[9.0, 2.0]` with no fuel; after
`add(3.0, 1502.0)` it returns `[1.0, 2.0, 3.0]`. -/
theorem C16_cache_keyed_on_length_witness :
    (writtenState.samples.length < UINT_RANGE ∧
      writtenState.depths.length = writtenState.samples.length ∧
      writtenState.depths ≠ depthColumn writtenState.samples) ∧
    getDepths exampleJunk 0 writtenState = Except.ok (writtenState.depths, writtenState) ∧
    writtenState.depths = [Double.ofNat 9, Double.ofNat 2] ∧
    (getDepths exampleJunk 4 (writtenState.add (Double.ofNat 3) (Double.ofNat 1502))).map
        Prod.fst = Except.ok [Double.ofNat 1, Double.ofNat 2, Double.ofNat 3] :=
  ⟨⟨by decide, by decide, by decide⟩,
    ((C16_cache_keyed_on_length writtenState (by decide)).1 (by decide)).1 exampleJunk 0,
    by rfl, by rfl⟩

/-- The depth column of `materializedProfile n` with `v` written at index `0` still has the
length of the log; for `0 < n` its first coefficient is `v` while the first sample has the
depth of `surfaceSample`. -/
theorem writeDepth_materializedProfile (n : Nat) (v : Double) :
    (writeDepth (materializedProfile n) 0 v).depths.length
        = (writeDepth (materializedProfile n) 0 v).samples.length ∧
      (writeDepth (materializedProfile n) 0 v).samples.length = n ∧
      (0 < n → (writeDepth (materializedProfile n) 0 v).depths[0]? = some v ∧
        (writeDepth (materializedProfile n) 0 v).samples[0]?.map Prod.fst
          = some surfaceSample.1) := by
  refine ⟨by simp [writeDepth, materializedProfile], by simp [writeDepth, materializedProfile],
    ?_⟩
  intro hn
  constructor
  · simp [writeDepth, materializedProfile, hn]
  · simp [writeDepth, materializedProfile, List.getElem?_replicate, hn]

/-- C16 as stated fails in the state with `2 ^ 32` samples whose depth column has the length
of the log and `9.0` written at index `0`, where the log has `0.0`: the length converts to `0`,
the length test reports a mismatch, the recompute branch is taken, and `getDepths()` does not
return the column, whatever the fuel. -/
theorem C16_counterexample :
    (writeDepth (materializedProfile UINT_RANGE) 0 (Double.ofNat 9)).depths.length
      = (writeDepth (materializedProfile UINT_RANGE) 0 (Double.ofNat 9)).samples.length ∧
    ((writeDepth (materializedProfile UINT_RANGE) 0 (Double.ofNat 9)).depths[0]?
        = some (Double.ofNat 9) ∧
      (writeDepth (materializedProfile UINT_RANGE) 0 (Double.ofNat 9)).samples[0]?.map Prod.fst
        = some surfaceSample.1) ∧
    Double.ofNat 9 ≠ surfaceSample.1 ∧
    ¬ ∃ fuel col p', getDepths exampleJunk fuel
        (writeDepth (materializedProfile UINT_RANGE) 0 (Double.ofNat 9))
        = Except.ok (col, p') :=
  ⟨(writeDepth_materializedProfile UINT_RANGE (Double.ofNat 9)).1,
    (writeDepth_materializedProfile UINT_RANGE (Double.ofNat 9)).2.2 UINT_RANGE_pos,
    by decide,
    fun ⟨fuel, col, p', h⟩ =>
      Except.noConfusion
        ((getDepths_diverges exampleJunk fuel _
          (Nat.le_of_eq
            (writeDepth_materializedProfile UINT_RANGE (Double.ofNat 9)).2.1.symm)).symm.trans h)⟩

/-- C17: the initial-segment invariant. In every state reachable from a freshly constructed
profile through `add`, `getDepths`, `getSpeeds`, `getSize` and the setters, the depth column is
no longer than the log and its coefficient `i` is the depth of sample `i`, and likewise the
speed column; therefore a column that has the length of the log is the log's column. -/
theorem C17_prefix_invariant (p : SoundVelocityProfile) (hr : Reachable p) :
    (p.depths.length ≤ p.samples.length ∧
      ∀ i : Nat, i < p.depths.length → p.depths[i]? = p.samples[i]?.map Prod.fst) ∧
    (p.speeds.length ≤ p.samples.length ∧
      ∀ i : Nat, i < p.speeds.length → p.speeds[i]? = p.samples[i]?.map Prod.snd) ∧
    (p.depths.length = p.samples.length → p.depths = depthColumn p.samples) ∧
    (p.speeds.length = p.samples.length → p.speeds = speedColumn p.samples) := by
  obtain ⟨hd, hs⟩ := prefixInv_of_reachable p hr
  refine ⟨⟨?_, ?_⟩, ⟨?_, ?_⟩, ?_, ?_⟩
  · simpa [depthColumn] using hd.length_le
  · intro i hi
    rw [← getElem?_of_initial hd i hi]
    simp [depthColumn]
  · simpa [speedColumn] using hs.length_le
  · intro i hi
    rw [← getElem?_of_initial hs i hi]
    simp [speedColumn]
  · intro h
    exact eq_of_prefix_of_length hd (by simpa [depthColumn] using h)
  · intro h
    exact eq_of_prefix_of_length hs (by simpa [speedColumn] using h)

/-- C17, concrete instance: `staleState` is reached by `add`, `getDepths`, `add`; its depth
column `[1.0]` is shorter than its log and agrees with it at index 0. -/
theorem C17_prefix_invariant_witness :
    Reachable staleState ∧
    ((staleState.depths.length ≤ staleState.samples.length ∧
      ∀ i : Nat, i < staleState.depths.length →
        staleState.depths[i]? = staleState.samples[i]?.map Prod.fst) ∧
    (staleState.speeds.length ≤ staleState.samples.length ∧
      ∀ i : Nat, i < staleState.speeds.length →
        staleState.speeds[i]? = staleState.samples[i]?.map Prod.snd) ∧
    (staleState.depths.length = staleState.samples.length →
      staleState.depths = depthColumn staleState.samples) ∧
    (staleState.speeds.length = staleState.samples.length →
      staleState.speeds = speedColumn staleState.samples)) ∧
    staleState.depths.length = 1 ∧ staleState.samples.length = 2 :=
  ⟨⟨0, Double.nan, 2,
      [Call.add (Double.ofNat 1) (Double.ofNat 1500), Call.getDepths exampleJunk,
        Call.add (Double.ofNat 2) (Double.ofNat 1501)], by rfl⟩,
    C17_prefix_invariant staleState
      ⟨0, Double.nan, 2,
        [Call.add (Double.ofNat 1) (Double.ofNat 1500), Call.getDepths exampleJunk,
          Call.add (Double.ofNat 2) (Double.ofNat 1501)], by rfl⟩,
    by rfl, by rfl⟩

/-- When `n` converts to `1` as an `unsigned int` and is not `1`, the length test on the
converted length and the comparison of the lengths themselves disagree in `paddedProfile n`. -/
theorem paddedProfile_test_differs (n : Nat) (h : n % UINT_RANGE = 1) (hne : n ≠ 1) :
    ¬ (((paddedProfile n).depths.length % UINT_RANGE ≠ (paddedProfile n).samples.length) ↔
        ((paddedProfile n).depths.length ≠ (paddedProfile n).samples.length)) := by
  rw [(paddedProfile_lengths n).1, (paddedProfile_lengths n).2.1, h]
  intro hiff
  exact hiff.mpr hne rfl

/-- C18 (amended): 32-bit arithmetic is exact below `2 ^ 32`. In every profile state whose
sample log has fewer than `2 ^ 32` entries: (a) for a column that also has fewer than `2 ^ 32`
coefficients, as every column of a reachable state has, the length test on the length
converted to `unsigned int` agrees with the comparison of the lengths themselves; (b) the
counter of the copy loop takes the values `0`, ..., `samples.length - 1`, each once and in
this order, and none of its increments wraps; (c) `getSize()` returns exactly
`samples.length`. -/
theorem C18_exact_below_bound (p : SoundVelocityProfile) (junk : Nat → Double) (fuel : Nat)
    (hn : p.samples.length < UINT_RANGE) (hf : p.samples.length < fuel) :
    ((p.depths.length < UINT_RANGE →
        ((p.depths.length % UINT_RANGE ≠ p.samples.length) ↔
          (p.depths.length ≠ p.samples.length))) ∧
      (p.speeds.length < UINT_RANGE →
        ((p.speeds.length % UINT_RANGE ≠ p.samples.length) ↔
          (p.speeds.length ≠ p.samples.length))) ∧
      (Reachable p →
        p.depths.length < UINT_RANGE ∧ p.speeds.length < UINT_RANGE ∧
        ((p.depths.length % UINT_RANGE ≠ p.samples.length) ↔
          (p.depths.length ≠ p.samples.length)) ∧
        ((p.speeds.length % UINT_RANGE ≠ p.samples.length) ↔
          (p.speeds.length ≠ p.samples.length)))) ∧
    ((∀ (sel : Double × Double → Double) (col : List Double), col.length = p.samples.length →
        copyLoopTrace sel p.samples fuel 0 col []
          = Except.ok (p.samples.map sel, List.range p.samples.length)) ∧
      (List.range p.samples.length).Nodup ∧
      (∀ i : Nat, i < p.samples.length →
        i ∈ List.range p.samples.length ∧ (i + 1) % UINT_RANGE = i + 1)) ∧
    (∃ p', getSize junk fuel p = Except.ok (p.samples.length, p')) := by
  have hiff : ∀ n : Nat, n < UINT_RANGE →
      ((n % UINT_RANGE ≠ p.samples.length) ↔ (n ≠ p.samples.length)) := by
    intro n h
    rw [Nat.mod_eq_of_lt h]
  refine ⟨⟨hiff _, hiff _, ?_⟩, ⟨?_, List.nodup_range _, ?_⟩, ?_⟩
  · intro hr
    obtain ⟨hd, hs⟩ := prefixInv_of_reachable p hr
    have hd' : p.depths.length < UINT_RANGE := by
      have := hd.length_le
      simp only [depthColumn, List.length_map] at this
      omega
    have hs' : p.speeds.length < UINT_RANGE := by
      have := hs.length_le
      simp only [speedColumn, List.length_map] at this
      omega
    exact ⟨hd', hs', hiff _ hd', hiff _ hs'⟩
  · intro sel col hc
    rw [copyLoopTrace_eq sel p.samples hn fuel 0 col [] hc (Nat.zero_le _),
      copyLoop_zero sel p.samples hn fuel hf col hc]
    simp [Except.map, List.range_eq_range']
  · intro i hi
    exact ⟨List.mem_range.mpr hi, Nat.mod_eq_of_lt (by omega)⟩
  · rw [getSize_eq_map, getDepths_eq junk fuel p hn hf]
    by_cases hm : p.depths.length % UINT_RANGE ≠ p.samples.length
    · rw [if_pos hm]
      refine ⟨{ p with depths := depthColumn p.samples }, ?_⟩
      simp only [Except.map, depthColumn, List.length_map, Nat.mod_eq_of_lt hn]
    · rw [if_neg hm]
      refine ⟨p, ?_⟩
      simp only [Except.map]
      rw [not_not.mp hm]

/-- C18, concrete instance: in `exampleState` after `add(3.0, 1502.0)` (columns of 2
coefficients, log of 3 samples) the length test of `getDepths()` reports the mismatch, the
counter of the loop takes the values 0, 1, 2, and `getSize()` returns 3. -/
theorem C18_exact_below_bound_witness :
    ((exampleState.add (Double.ofNat 3) (Double.ofNat 1502)).samples.length < UINT_RANGE ∧
      (exampleState.add (Double.ofNat 3) (Double.ofNat 1502)).samples.length < 4) ∧
    (∃ p', getSize exampleJunk 4 (exampleState.add (Double.ofNat 3) (Double.ofNat 1502))
      = Except.ok ((exampleState.add (Double.ofNat 3) (Double.ofNat 1502)).samples.length, p')) ∧
    (getSize exampleJunk 4 (exampleState.add (Double.ofNat 3) (Double.ofNat 1502))).map Prod.fst
      = Except.ok 3 ∧
    (getDepthsTrace exampleJunk 4 (exampleState.add (Double.ofNat 3) (Double.ofNat 1502))).map
        (fun r => r.2.2) = Except.ok (List.range 3) :=
  ⟨⟨by decide, by decide⟩,
    (C18_exact_below_bound (exampleState.add (Double.ofNat 3) (Double.ofNat 1502)) exampleJunk 4
      (by decide) (by decide)).2.2,
    by rfl, by rfl⟩

/-- C18 (a) as stated fails in the state with one sample, fewer than `2 ^ 32`, and a depth
column of `2 ^ 32 + 1` coefficients: the length converted to `unsigned int` is `1`, so the
length test reports no mismatch and `getDepths()` returns the column as it is, while the
lengths themselves differ. -/
theorem C18_counterexample :
    (paddedProfile (UINT_RANGE + 1)).samples.length < UINT_RANGE ∧
    ¬ (((paddedProfile (UINT_RANGE + 1)).depths.length % UINT_RANGE
          ≠ (paddedProfile (UINT_RANGE + 1)).samples.length) ↔
        ((paddedProfile (UINT_RANGE + 1)).depths.length
          ≠ (paddedProfile (UINT_RANGE + 1)).samples.length)) ∧
    getDepths exampleJunk 1 (paddedProfile (UINT_RANGE + 1))
      = Except.ok ((paddedProfile (UINT_RANGE + 1)).depths, paddedProfile (UINT_RANGE + 1)) :=
  ⟨(paddedProfile_lengths (UINT_RANGE + 1)).1.symm ▸ (by decide : 1 < UINT_RANGE),
    paddedProfile_test_differs (UINT_RANGE + 1) succ_UINT_RANGE_mod
      (Nat.ne_of_gt (Nat.lt_add_of_pos_left UINT_RANGE_pos)),
    paddedProfile_getDepths (UINT_RANGE + 1) succ_UINT_RANGE_mod exampleJunk 1⟩

end SoundVelocityProfile
